import Mathlib

/-!
# go-countries: request construction and response handling

A shallow embedding of `client.go` (package `countries`): the URL built by
`make_url`, the two request engines `request` / `requestSingle`, and the
public lookups, together with the parts of Go's `net/url`, `path` and
`strings` packages that `make_url` runs through.

Go strings are byte sequences; they are modelled as lists of bytes.
-/

namespace Countries

/-- A byte of a Go string. -/
abbrev Byte := Fin 256

/-- A Go `string`: an immutable sequence of bytes. -/
abbrev GoString := List Byte

/-- The bytes of a source-code string literal (Go source text is UTF-8). -/
def str (s : String) : GoString :=
  (s.toList.map String.utf8EncodeChar).flatten.map (fun b => b.val)

/-! ## package strings -/

namespace strings

/-- Go `strings.Join(elems, sep)`. -/
def Join : List GoString → GoString → GoString
  | [], _ => []
  | [e], _ => e
  | e :: es, sep => e ++ sep ++ Join es sep

/-- Go `strings.HasSuffix(s, suffix)`. -/
def HasSuffix (s suffix : GoString) : Bool :=
  suffix.length ≤ s.length && s.drop (s.length - suffix.length) == suffix

/-- Go `strings.Cut(s, sep)` for a one-byte separator: the text before the
first `sep`, the text after it, and whether `sep` was found. -/
def Cut : GoString → Byte → GoString × GoString × Bool
  | [], _ => ([], [], false)
  | c :: cs, sep =>
    if c = sep then ([], cs, true)
    else ((c :: (Cut cs sep).1), (Cut cs sep).2.1, (Cut cs sep).2.2)

/-- Go `strings.Contains(s, sep)` for a one-byte `sep`. -/
def Contains (s : GoString) (sep : Byte) : Bool := s.contains sep

end strings

/-! ## package net/url: escaping -/

namespace url

/-- The `encoding` modes of `net/url`. -/
inductive encoding where
  | encodePath
  | encodePathSegment
  | encodeHost
  | encodeZone
  | encodeUserPassword
  | encodeQueryComponent
  | encodeFragment
  deriving DecidableEq, Repr

open encoding

/-- Go `shouldEscape(c, mode)`: whether byte `c` must be percent-escaped when
it appears in the URL component `mode` (RFC 3986 as read by `net/url`). -/
def shouldEscape (c : Byte) (mode : encoding) : Bool :=
  -- §2.3 Unreserved characters (alphanum)
  if (97 ≤ c.val ∧ c.val ≤ 122) ∨ (65 ≤ c.val ∧ c.val ≤ 90) ∨ (48 ≤ c.val ∧ c.val ≤ 57) then
    false
  else if (mode = encodeHost ∨ mode = encodeZone) ∧
      -- '!', '$', '&', '\'', '(', ')', '*', '+', ',', ';', '=', ':', '[', ']', '<', '>', '"'
      c.val ∈ [33, 36, 38, 39, 40, 41, 42, 43, 44, 59, 61, 58, 91, 93, 60, 62, 34] then
    false
  -- '-', '_', '.', '~': §2.3 Unreserved characters (mark)
  else if c.val ∈ [45, 95, 46, 126] then
    false
  -- '$', '&', '+', ',', '/', ':', ';', '=', '?', '@': §2.2 Reserved characters
  else if c.val ∈ [36, 38, 43, 44, 47, 58, 59, 61, 63, 64] ∧
      mode ∈ [encodePath, encodePathSegment, encodeUserPassword, encodeQueryComponent,
        encodeFragment] then
    match mode with
    | encodePath => c.val = 63
    | encodePathSegment => c.val = 47 ∨ c.val = 59 ∨ c.val = 44 ∨ c.val = 63
    | encodeUserPassword => c.val = 64 ∨ c.val = 47 ∨ c.val = 63 ∨ c.val = 58
    | encodeQueryComponent => true
    | _ => false
  -- '!', '(', ')', '*' are left alone in a fragment
  else if mode = encodeFragment ∧ c.val ∈ [33, 40, 41, 42] then
    false
  else
    -- Everything else must be escaped.
    true

/-- The table `upperhex = "0123456789ABCDEF"`, indexed by a nibble. -/
def upperhex (n : Nat) : Byte :=
  if n < 10 then Fin.ofNat (48 + n) else Fin.ofNat (55 + n)

/-- Go `ishex(c)`. -/
def ishex (c : Byte) : Bool :=
  (48 ≤ c.val ∧ c.val ≤ 57) ∨ (97 ≤ c.val ∧ c.val ≤ 102) ∨ (65 ≤ c.val ∧ c.val ≤ 70)

/-- Go `unhex(c)`. -/
def unhex (c : Byte) : Nat :=
  if 48 ≤ c.val ∧ c.val ≤ 57 then c.val - 48
  else if 97 ≤ c.val ∧ c.val ≤ 102 then c.val - 97 + 10
  else if 65 ≤ c.val ∧ c.val ≤ 70 then c.val - 65 + 10
  else 0

/-- What `escape` writes for one byte: `+` for a space in a query component,
`%XX` (upper-case hex) for a byte that must be escaped, the byte itself
otherwise. -/
def escapeByte (mode : encoding) (c : Byte) : GoString :=
  if c.val = 32 ∧ mode = encodeQueryComponent then [43]
  else if shouldEscape c mode then [37, upperhex (c.val / 16), upperhex (c.val % 16)]
  else [c]

/-- Go `escape(s, mode)`. -/
def escape : GoString → encoding → GoString
  | [], _ => []
  | c :: cs, mode => escapeByte mode c ++ escape cs mode

/-- Go `unescape(s, mode)` for the path and query modes: `%XX` becomes the
byte `XX`, `+` becomes a space in a query component; a `%` that is not
followed by two hex digits is an `EscapeError` (`none`). -/
def unescape : GoString → encoding → Option GoString
  | [], _ => some []
  | c :: cs, mode =>
    if c.val = 37 then
      match cs with
      | h1 :: h2 :: rest =>
        if ishex h1 ∧ ishex h2 then
          (unescape rest mode).map (fun t => Fin.ofNat (unhex h1 * 16 + unhex h2) :: t)
        else none
      | _ => none
    else if c.val = 43 ∧ mode = encodeQueryComponent then
      (unescape cs mode).map (fun t => (32 : Byte) :: t)
    else
      (unescape cs mode).map (fun t => c :: t)

/-- Go `url.PathEscape(s)`. -/
def PathEscape (s : GoString) : GoString := escape s encodePathSegment

/-- Go `url.PathUnescape(s)`. -/
def PathUnescape (s : GoString) : Option GoString := unescape s encodePathSegment

/-- Go `url.QueryEscape(s)`. -/
def QueryEscape (s : GoString) : GoString := escape s encodeQueryComponent

/-- Go `url.QueryUnescape(s)`. -/
def QueryUnescape (s : GoString) : Option GoString := unescape s encodeQueryComponent

end url

/-! ## package path -/

namespace path

/-- The pieces of `s` between occurrences of `sep` (always at least one). -/
def splitOn (sep : Byte) : GoString → List GoString
  | [] => [[]]
  | c :: cs =>
    if c = sep then [] :: splitOn sep cs
    else match splitOn sep cs with
      | [] => [[c]]
      | h :: t => (c :: h) :: t

/-- One round of the loop of `path.Clean`, on the path element `seg` that
starts at the read position; `out` holds the elements written so far, the
last one first.  An empty element and `.` are dropped; `..` removes the last
element written (when there is one to backtrack over), is dropped at the root
of a rooted path, and is kept at the front of a path that is not rooted; any
other element is copied. -/
def cleanStep (rooted : Bool) (out : List GoString) (seg : GoString) : List GoString :=
  if seg = [] then out
  else if seg = [46] then out
  else if seg = [46, 46] then
    match out with
    | [] => if rooted then [] else [[46, 46]]
    | top :: below => if top = [46, 46] then seg :: out else below
  else seg :: out

/-- Go `path.Clean(path)`: the shortest path name equivalent to `path` by
purely lexical processing. -/
def Clean (path : GoString) : GoString :=
  if path = [] then [46]
  else
    let rooted : Bool := path.head? = some 47
    let out := ((splitOn 47 path).foldl (cleanStep rooted) []).reverse
    if rooted then 47 :: strings.Join out [47]
    else if out = [] then [46]
    else strings.Join out [47]

/-- The buffer `path.Join` builds before cleaning: the elements separated by
slashes, leading empty elements ignored. -/
def joinBuf : GoString → List GoString → GoString
  | buf, [] => buf
  | buf, e :: es =>
    if 0 < buf.length ∨ e ≠ [] then
      joinBuf ((if 0 < buf.length then buf ++ [47] else buf) ++ e) es
    else joinBuf buf es

/-- Go `path.Join(elem...)`. -/
def Join (elem : List GoString) : GoString :=
  if (elem.map List.length).sum = 0 then []
  else Clean (joinBuf [] elem)

end path

/-! ## package net/url: URL and Values -/

namespace url

open encoding

/-- Go `url.Userinfo`. -/
structure Userinfo where
  username : GoString
  password : GoString
  passwordSet : Bool
  deriving DecidableEq, Repr

/-- Go `url.URL`. -/
structure URL where
  Scheme : GoString
  Opaque : GoString
  User : Option Userinfo
  Host : GoString
  Path : GoString
  RawPath : GoString
  OmitHost : Bool
  ForceQuery : Bool
  RawQuery : GoString
  Fragment : GoString
  RawFragment : GoString
  deriving DecidableEq, Repr

/-- Go `(*Userinfo).String`. -/
def Userinfo.String (u : Userinfo) : GoString :=
  escape u.username encodeUserPassword ++
    (if u.passwordSet then 58 :: escape u.password encodeUserPassword else [])

/-- Go `validEncoded(s, mode)`: whether `s` is a valid encoded path or
fragment according to `mode`. -/
def validEncoded (s : GoString) (mode : encoding) : Bool :=
  s.all (fun c =>
    -- '!', '$', '&', '\'', '(', ')', '*', '+', ',', ';', '=', ':', '@', '[', ']', '%'
    if c.val ∈ [33, 36, 38, 39, 40, 41, 42, 43, 44, 59, 61, 58, 64, 91, 93, 37] then true
    else !shouldEscape c mode)

/-- Go `(*URL).setPath(p)`: sets `Path` to the decoded form of `p` and
`RawPath` to `p` itself when `p` differs from the default encoding of the
decoded path.  The second component is `false` when `p` does not decode, in
which case the URL is left as it was. -/
def URL.setPath (u : URL) (p : GoString) : URL × Bool :=
  match unescape p encodePath with
  | none => (u, false)
  | some path =>
    if p = escape path encodePath then ({ u with Path := path, RawPath := [] }, true)
    else ({ u with Path := path, RawPath := p }, true)

/-- Go `(*URL).EscapedPath`. -/
def URL.EscapedPath (u : URL) : GoString :=
  if u.RawPath ≠ [] ∧ validEncoded u.RawPath encodePath ∧
      unescape u.RawPath encodePath = some u.Path then u.RawPath
  else if u.Path = [42] then [42]
  else escape u.Path encodePath

/-- Go `(*URL).EscapedFragment`. -/
def URL.EscapedFragment (u : URL) : GoString :=
  if u.RawFragment ≠ [] ∧ validEncoded u.RawFragment encodeFragment ∧
      unescape u.RawFragment encodeFragment = some u.Fragment then u.RawFragment
  else escape u.Fragment encodeFragment

/-- Go `(*URL).String`: reassembles the URL into a valid URL string,
`scheme://userinfo@host/path?query#fragment`. -/
def URL.String (u : URL) : GoString :=
  let buf0 : GoString := if u.Scheme ≠ [] then u.Scheme ++ [58] else []
  let buf1 : GoString :=
    if u.Opaque ≠ [] then buf0 ++ u.Opaque
    else
      let buf :=
        if u.Scheme ≠ [] ∨ u.Host ≠ [] ∨ u.User.isSome then
          if u.OmitHost ∧ u.Host = [] ∧ u.User.isNone then buf0
          else
            let b1 := if u.Host ≠ [] ∨ u.Path ≠ [] ∨ u.User.isSome then buf0 ++ [47, 47] else buf0
            let b2 := match u.User with
              | some ui => b1 ++ ui.String ++ [64]
              | none => b1
            if u.Host ≠ [] then b2 ++ escape u.Host encodeHost else b2
        else buf0
      let path := u.EscapedPath
      let buf := if path ≠ [] ∧ path.head? ≠ some 47 ∧ u.Host ≠ [] then buf ++ [47] else buf
      let buf :=
        if buf.length = 0 ∧ strings.Contains (strings.Cut path 47).1 58 then buf ++ [46, 47]
        else buf
      buf ++ path
  let buf2 := if u.ForceQuery ∨ u.RawQuery ≠ [] then buf1 ++ [63] ++ u.RawQuery else buf1
  if u.Fragment ≠ [] then buf2 ++ [35] ++ u.EscapedFragment else buf2

/-- Go `(*URL).JoinPath(elem...)`: a new URL with the elements joined to the
existing path and the result cleaned of `./` and `../` elements.  The result
of `setPath` is not checked. -/
def URL.JoinPath (u : URL) (elem : List GoString) : URL :=
  let elem0 := u.EscapedPath
  let rooted : Bool := elem0.head? = some 47
  let elem := (if rooted then elem0 else 47 :: elem0) :: elem
  let p := if rooted then path.Join elem else (path.Join elem).drop 1
  let p :=
    if strings.HasSuffix (elem.getLastD []) [47] ∧ ¬ strings.HasSuffix p [47] then p ++ [47]
    else p
  (u.setPath p).1

/-- Go `url.Values`, a `map[string][]string`: the keys with their value
lists.  The order of the entries carries no meaning. -/
abbrev Values := List (GoString × List GoString)

/-- The map lookup `v[key]` (nil, the empty list, for a missing key). -/
def Values.index (v : Values) (key : GoString) : List GoString :=
  match v with
  | [] => []
  | (k, vs) :: rest => if k = key then vs else Values.index rest key

/-- Go `Values.Add(key, value)`: `v[key] = append(v[key], value)`. -/
def Values.Add (v : Values) (key value : GoString) : Values :=
  match v with
  | [] => [(key, [value])]
  | (k, vs) :: rest =>
    if k = key then (k, vs ++ [value]) :: rest else (k, vs) :: Values.Add rest key value

/-- Go string comparison `a < b`: lexicographic on bytes. -/
def stringLt : GoString → GoString → Bool
  | _, [] => false
  | [], _ :: _ => true
  | a :: as, b :: bs => if a.val < b.val then true else if b.val < a.val then false else stringLt as bs

/-- Insertion of a key into a sorted list of keys. -/
def insertKey (k : GoString) : List GoString → List GoString
  | [] => [k]
  | x :: xs => if stringLt x k then x :: insertKey k xs else k :: x :: xs

/-- Go `slices.Sort(keys)` on strings. -/
def sortKeys : List GoString → List GoString
  | [] => []
  | k :: ks => insertKey k (sortKeys ks)

/-- The text `Values.Encode` writes for one key: `key=value` for each of its
values, every pair preceded by `&` unless the buffer is still empty. -/
def encodeKey (keyEscaped : GoString) : GoString → List GoString → GoString
  | buf, [] => buf
  | buf, v :: vs =>
    encodeKey keyEscaped
      ((if 0 < buf.length then buf ++ [38] else buf) ++ keyEscaped ++ [61] ++ QueryEscape v) vs

/-- Go `Values.Encode`: the values in URL-encoded form
(`bar=baz&foo=quux`), sorted by key. -/
def Values.Encode (v : Values) : GoString :=
  (sortKeys (v.map Prod.fst)).foldl
    (fun buf k => encodeKey (QueryEscape k) buf (v.index k)) []

/-- One round of the loop of `parseQuery`, on the piece `key` cut off at the
next `&`.  The state is the map and whether an error was seen. -/
def parseQueryStep (st : Values × Bool) (key : GoString) : Values × Bool :=
  if strings.Contains key 59 then (st.1, false)
  else if key = [] then st
  else
    let c := strings.Cut key 61
    match QueryUnescape c.1 with
    | none => (st.1, false)
    | some key1 =>
      match QueryUnescape c.2.1 with
      | none => (st.1, false)
      | some value => (st.1.Add key1 value, st.2)

/-- Go `url.ParseQuery(query)`: the map of the `key=value` settings of the
query, and whether it parsed without error (`err == nil`).  The loop of
`parseQuery` cuts the query at each `&`; a setting that is empty, holds a
semicolon or does not decode is skipped. -/
def ParseQuery (query : GoString) : Values × Bool :=
  if query = [] then ([], true)
  else (path.splitOn 38 query).foldl parseQueryStep ([], true)

/-- Go `(*URL).Query`: parses `RawQuery`, silently discarding malformed
value pairs. -/
def URL.Query (u : URL) : Values := (ParseQuery u.RawQuery).1

end url

/-! ## client.go -/

open url

/-- `const ApiVersion = "v3.1"`. -/
def ApiVersion : GoString := str "v3.1"

/-- `const BaseUrl = "https://restcountries.com/" + ApiVersion + "/"`. -/
def BaseUrl : GoString := str "https://restcountries.com/" ++ ApiVersion ++ str "/"

/-- The URL `url.Parse(BaseUrl)` returns for the constant `BaseUrl`: scheme
`https`, host `restcountries.com`, path `/` ++ `ApiVersion` ++ `/`, no query
and no fragment. -/
def parsedBaseUrl : URL :=
  { Scheme := str "https", Opaque := [], User := none, Host := str "restcountries.com",
    Path := str "/" ++ ApiVersion ++ str "/", RawPath := [], OmitHost := false,
    ForceQuery := false, RawQuery := [], Fragment := [], RawFragment := [] }

/-- `func make_url(path string, queryValues url.Values, fields ...string) *url.URL`. -/
def make_url (path : GoString) (queryValues : Values) (fields : List GoString) : URL :=
  let u := parsedBaseUrl
  let u := u.JoinPath [path]
  let q := u.Query
  let q := queryValues.foldl
    (fun q kv => kv.2.foldl (fun q value => q.Add kv.1 value) q) q
  let q := q.Add (str "fields") (strings.Join fields (str ","))
  { u with RawQuery := q.Encode }

/-- A Go `error` value, identified by the text `Error()` returns. -/
structure GoError where
  text : GoString
  deriving DecidableEq, Repr

/-- A Go slice `[]T`; `none` is the nil slice. -/
abbrev Slice (α : Type) := Option (List α)

/-- A Go map `map[string]T`; `none` is the nil map. -/
abbrev GoMap (α : Type) := Option (List (GoString × α))

/-- A Go `float64`, as its IEEE 754 bit pattern (zero value `0`). -/
abbrev float64 := Nat

/-- `type ErrorMessage struct`: the envelope the service sends on failure. -/
structure ErrorMessage where
  Message : GoString
  Status : Int
  deriving DecidableEq, Repr

/-- `type NativeNameT struct`. -/
structure NativeNameT where
  Official : GoString
  Common : GoString
  deriving DecidableEq, Repr

/-- `type Name struct`, which embeds `NativeNameT`. -/
structure Name extends NativeNameT where
  NativeName : GoMap NativeNameT
  deriving DecidableEq, Repr

/-- `type Currency struct`. -/
structure Currency where
  Name : GoString
  Symbol : GoString
  deriving DecidableEq, Repr

/-- `type Idd struct`. -/
structure Idd where
  Root : GoString
  Suffixes : Slice GoString
  deriving DecidableEq, Repr

/-- `type CapitalInfo struct`. -/
structure CapitalInfo where
  Latlng : Slice float64
  deriving DecidableEq, Repr

/-- `type Demonyms struct`. -/
structure Demonyms where
  F : GoString
  M : GoString
  deriving DecidableEq, Repr

/-- `type Car struct`. -/
structure Car where
  Signs : Slice GoString
  Side : GoString
  deriving DecidableEq, Repr

/-- `type PostalCode struct`. -/
structure PostalCode where
  Format : GoString
  Regex : GoString
  deriving DecidableEq, Repr

/-- `type Country struct`. -/
structure Country where
  Name : Name
  Tld : Slice GoString
  Cca2 : GoString
  Ccn3 : GoString
  Cca3 : GoString
  Cioc : GoString
  Fifa : GoString
  Independent : Bool
  Status : GoString
  UnMember : Bool
  Currencies : GoMap Currency
  Idd : Idd
  Capital : Slice GoString
  CapitalInfo : CapitalInfo
  AltSpellings : Slice GoString
  Region : GoString
  Subregion : GoString
  Continents : Slice GoString
  Languages : GoMap GoString
  Translations : GoMap Countries.Name
  Latlng : Slice float64
  Landlocked : Bool
  Borders : Slice GoString
  Area : float64
  Demonyms : Demonyms
  Flag : GoString
  Flags : GoMap GoString
  CoatOfArms : GoMap GoString
  Population : Int
  Maps : GoMap GoString
  Gini : GoMap float64
  Car : Car
  PostalCode : PostalCode
  StartOfWeek : GoString
  Timezones : Slice GoString
  deriving DecidableEq, Repr

/-- The zero value `Name{}`. -/
def Name.zero : Name :=
  { Official := [], Common := [], NativeName := none }

/-- The zero value `Country{}`: empty strings, `false`, `0`, nil slices and
nil maps. -/
def Country.zero : Country :=
  { Name := Name.zero, Tld := none, Cca2 := [], Ccn3 := [], Cca3 := [], Cioc := [], Fifa := [],
    Independent := false, Status := [], UnMember := false, Currencies := none,
    Idd := { Root := [], Suffixes := none }, Capital := none, CapitalInfo := { Latlng := none },
    AltSpellings := none, Region := [], Subregion := [], Continents := none, Languages := none,
    Translations := none, Latlng := none, Landlocked := false, Borders := none, Area := 0,
    Demonyms := { F := [], M := [] }, Flag := [], Flags := none, CoatOfArms := none,
    Population := 0, Maps := none, Gini := none, Car := { Signs := none, Side := [] },
    PostalCode := { Format := [], Regex := [] }, StartOfWeek := [], Timezones := none }

/-- The zero value `ErrorMessage{}`. -/
def ErrorMessage.zero : ErrorMessage := { Message := [], Status := 0 }

/-- Go `http.StatusOK`. -/
def StatusOK : Int := 200

/-- The parts of a Go `*http.Response` the client reads: the status line
text (`"404 Not Found"`), the status code, the body, and what
`resp.Body.Close()` returns. -/
structure Response where
  Status : GoString
  StatusCode : Int
  Body : GoString
  BodyClose : Option GoError
  deriving DecidableEq, Repr

/-- The world outside the client: what `http.Get` answers for a URL string,
and what `json.NewDecoder(body).Decode(&v)` does for each of the three
targets the client decodes into.  `Decode` receives the target as it stands
and returns it as it leaves it, together with its error (`none` is `nil`):
on failure the target may have been written in part. -/
structure Net where
  Get : GoString → Except GoError Response
  DecodeErrorMessage : GoString → ErrorMessage → ErrorMessage × Option GoError
  DecodeCountry : GoString → Country → Country × Option GoError
  DecodeCountries : GoString → Slice Country → Slice Country × Option GoError

/-- How a call ends: it returns its two results `(value, err)`, or the
process is ended by `log.Fatal`, which prints the given message and exits. -/
inductive Outcome (α : Type) where
  | returned (value : α) (err : Option GoError)
  | fatal (output : GoString)
  deriving DecidableEq, Repr

/-- A run of one of the request engines: the URL `make_url` built, whose
`String()` is handed to `http.Get`, and how the call ended. -/
structure Run (α : Type) where
  u : URL
  outcome : Outcome α

/-- The URL string a run hands to `http.Get`. -/
def Run.requested {α : Type} (r : Run α) : GoString := r.u.String

/-- The error of `fmt.Errorf("API request failed with status %s : %v", status, message)`. -/
def Errorf_APIRequestFailed (status message : GoString) : GoError :=
  ⟨str "API request failed with status " ++ status ++ str " : " ++ message⟩

/-- Go `fmt.Sprintf("%t", b)`. -/
def Sprintf_t (b : Bool) : GoString := if b then str "true" else str "false"

/-- The deferred function of both engines: `resp.Body.Close()` runs when the
function returns, and an error from it ends the process through
`log.Fatal("Error closing response body:", err)`. -/
def deferredClose {α : Type} (resp : Response) (value : α) (err : Option GoError) : Outcome α :=
  match resp.BodyClose with
  | some cerr => Outcome.fatal (str "Error closing response body:" ++ cerr.text)
  | none => Outcome.returned value err

/-- `func requestSingle(path string, queryValues url.Values, fields ...string) (Country, error)`. -/
def requestSingle (net : Net) (path : GoString) (queryValues : Values) (fields : List GoString) :
    Run Country :=
  let u := make_url path queryValues fields
  match net.Get u.String with
  | Except.error err => ⟨u, Outcome.returned Country.zero (some err)⟩
  | Except.ok resp =>
    if resp.StatusCode ≠ StatusOK then
      match net.DecodeErrorMessage resp.Body ErrorMessage.zero with
      | (_, some err) => ⟨u, deferredClose resp Country.zero (some err)⟩
      | (errorMsg, none) =>
        ⟨u, deferredClose resp Country.zero
          (some (Errorf_APIRequestFailed resp.Status errorMsg.Message))⟩
    else
      match net.DecodeCountry resp.Body Country.zero with
      | (_, some err) => ⟨u, deferredClose resp Country.zero (some err)⟩
      | (country, none) => ⟨u, deferredClose resp country none⟩

/-- `func request(path string, queryValues url.Values, fields ...string) ([]Country, error)`. -/
def request (net : Net) (path : GoString) (queryValues : Values) (fields : List GoString) :
    Run (Slice Country) :=
  let u := make_url path queryValues fields
  match net.Get u.String with
  | Except.error err => ⟨u, Outcome.returned none (some err)⟩
  | Except.ok resp =>
    if resp.StatusCode ≠ StatusOK then
      match net.DecodeErrorMessage resp.Body ErrorMessage.zero with
      | (_, some err) => ⟨u, deferredClose resp none (some err)⟩
      | (errorMsg, none) =>
        ⟨u, deferredClose resp none
          (some (Errorf_APIRequestFailed resp.Status errorMsg.Message))⟩
    else
      match net.DecodeCountries resp.Body none with
      | (_, some err) => ⟨u, deferredClose resp none (some err)⟩
      | (countries, none) => ⟨u, deferredClose resp countries none⟩

/-- `func All(fields ...string) ([]Country, error)`. -/
def All (net : Net) (fields : List GoString) : Run (Slice Country) :=
  request net (str "all") [] fields

/-- `func ByName(name string, fields ...string) ([]Country, error)`. -/
def ByName (net : Net) (name : GoString) (fields : List GoString) : Run (Slice Country) :=
  request net (str "name/" ++ PathEscape name) [] fields

/-- `func ByFullName(name string, fields ...string) ([]Country, error)`. -/
def ByFullName (net : Net) (name : GoString) (fields : List GoString) : Run (Slice Country) :=
  request net (str "name/" ++ PathEscape name) [(str "fullText", [str "true"])] fields

/-- `func ByCode(code string, fields ...string) (Country, error)`. -/
def ByCode (net : Net) (code : GoString) (fields : List GoString) : Run Country :=
  requestSingle net (str "alpha/" ++ PathEscape code) [] fields

/-- `func ByCodes(codes []string, fields ...string) ([]Country, error)`. -/
def ByCodes (net : Net) (codes : List GoString) (fields : List GoString) : Run (Slice Country) :=
  request net (str "alpha") [(str "codes", [strings.Join codes (str ",")])] fields

/-- `func ByCurrency(currency string, fields ...string) ([]Country, error)`. -/
def ByCurrency (net : Net) (currency : GoString) (fields : List GoString) :
    Run (Slice Country) :=
  request net (str "currency/" ++ PathEscape currency) [] fields

/-- `func ByDemonym(demonym string, fields ...string) ([]Country, error)`. -/
def ByDemonym (net : Net) (demonym : GoString) (fields : List GoString) : Run (Slice Country) :=
  request net (str "demonym/" ++ PathEscape demonym) [] fields

/-- `func ByLanguage(language string, fields ...string) ([]Country, error)`. -/
def ByLanguage (net : Net) (language : GoString) (fields : List GoString) :
    Run (Slice Country) :=
  request net (str "lang/" ++ PathEscape language) [] fields

/-- `func ByCapital(capital string, fields ...string) ([]Country, error)`. -/
def ByCapital (net : Net) (capital : GoString) (fields : List GoString) : Run (Slice Country) :=
  request net (str "capital/" ++ PathEscape capital) [] fields

/-- `func ByRegion(region string, fields ...string) ([]Country, error)`. -/
def ByRegion (net : Net) (region : GoString) (fields : List GoString) : Run (Slice Country) :=
  request net (str "region/" ++ PathEscape region) [] fields

/-- `func BySubregion(subregion string, fields ...string) ([]Country, error)`. -/
def BySubregion (net : Net) (subregion : GoString) (fields : List GoString) :
    Run (Slice Country) :=
  request net (str "subregion/" ++ PathEscape subregion) [] fields

/-- `func ByTranslation(translation string, fields ...string) ([]Country, error)`. -/
def ByTranslation (net : Net) (translation : GoString) (fields : List GoString) :
    Run (Slice Country) :=
  request net (str "translation/" ++ PathEscape translation) [] fields

/-- `func ByIndependence(independent bool, fields ...string) ([]Country, error)`. -/
def ByIndependence (net : Net) (independent : Bool) (fields : List GoString) :
    Run (Slice Country) :=
  request net (str "independent") [(str "status", [Sprintf_t independent])] fields

end Countries

/-! ## Notions used by the statements -/

namespace Countries

namespace url

open encoding

/-- The bytes a path parameter can be escaped into: never a slash, a question
mark, a number sign, and always acceptable to `validEncoded` in a path. -/
def segmentByte (b : Byte) : Bool :=
  decide (b.val ≠ 47) && decide (b.val ≠ 63) && decide (b.val ≠ 35) &&
    validEncoded [b] encodePath

/-- The bytes a query component can be escaped into: never `&`, `=`, `;`. -/
def queryByte (b : Byte) : Bool :=
  decide (b.val ≠ 38) && decide (b.val ≠ 61) && decide (b.val ≠ 59)

/-- The pairs of modes for which unescaping undoes escaping: a path segment is
read back as a segment or as part of a path, a query component as a query
component. -/
def readsBack (m m' : encoding) : Prop :=
  (m = encodePathSegment ∧ (m' = encodePath ∨ m' = encodePathSegment)) ∨
  (m = encodeQueryComponent ∧ m' = encodeQueryComponent)

/-- The parts of a URL that `setPath` and `JoinPath` leave alone. -/
def sameOrigin (u v : URL) : Prop :=
  v.Scheme = u.Scheme ∧ v.Opaque = u.Opaque ∧ v.User = u.User ∧ v.Host = u.Host ∧
    v.OmitHost = u.OmitHost ∧ v.ForceQuery = u.ForceQuery ∧
    v.Fragment = u.Fragment ∧ v.RawFragment = u.RawFragment

/-- The text of settings `key=value`, each component escaped, joined by `&`:
the form `Values.Encode` writes. -/
def encodePairs : List (GoString × GoString) → GoString
  | [] => []
  | [p] => QueryEscape p.1 ++ 61 :: QueryEscape p.2
  | p :: q :: rest =>
    (QueryEscape p.1 ++ 61 :: QueryEscape p.2) ++ 38 :: encodePairs (q :: rest)

end url

namespace path

/-- A static path segment: not empty and made of ASCII letters and digits. -/
def plainSegment (seg : GoString) : Bool :=
  decide (seg ≠ []) &&
    seg.all (fun c => decide ((97 ≤ c.val ∧ c.val ≤ 122) ∨ (65 ≤ c.val ∧ c.val ≤ 90) ∨
      (48 ≤ c.val ∧ c.val ≤ 57)))

end path

end Countries

/-! ## The public lookups, enumerated -/

namespace Countries

open url

/-- A call of one of the thirteen public lookups, with its lookup argument. -/
inductive Lookup where
  | All
  | ByName (name : GoString)
  | ByFullName (name : GoString)
  | ByCode (code : GoString)
  | ByCodes (codes : List GoString)
  | ByCurrency (currency : GoString)
  | ByDemonym (demonym : GoString)
  | ByLanguage (language : GoString)
  | ByCapital (capital : GoString)
  | ByRegion (region : GoString)
  | BySubregion (subregion : GoString)
  | ByTranslation (translation : GoString)
  | ByIndependence (independent : Bool)

/-- The URL the lookup builds with `make_url`, for the given field list. -/
def Lookup.u (net : Net) (fields : List GoString) : Lookup → URL
  | Lookup.All => (Countries.All net fields).u
  | Lookup.ByName name => (Countries.ByName net name fields).u
  | Lookup.ByFullName name => (Countries.ByFullName net name fields).u
  | Lookup.ByCode code => (Countries.ByCode net code fields).u
  | Lookup.ByCodes codes => (Countries.ByCodes net codes fields).u
  | Lookup.ByCurrency currency => (Countries.ByCurrency net currency fields).u
  | Lookup.ByDemonym demonym => (Countries.ByDemonym net demonym fields).u
  | Lookup.ByLanguage language => (Countries.ByLanguage net language fields).u
  | Lookup.ByCapital capital => (Countries.ByCapital net capital fields).u
  | Lookup.ByRegion region => (Countries.ByRegion net region fields).u
  | Lookup.BySubregion subregion => (Countries.BySubregion net subregion fields).u
  | Lookup.ByTranslation translation => (Countries.ByTranslation net translation fields).u
  | Lookup.ByIndependence independent => (Countries.ByIndependence net independent fields).u

/-- For the ten lookups that take a path parameter: the static segment the
operation is documented to request, and the caller's string. -/
def Lookup.pathParameter : Lookup → Option (GoString × GoString)
  | Lookup.ByName name => some (str "name", name)
  | Lookup.ByFullName name => some (str "name", name)
  | Lookup.ByCode code => some (str "alpha", code)
  | Lookup.ByCurrency currency => some (str "currency", currency)
  | Lookup.ByDemonym demonym => some (str "demonym", demonym)
  | Lookup.ByLanguage language => some (str "lang", language)
  | Lookup.ByCapital capital => some (str "capital", capital)
  | Lookup.ByRegion region => some (str "region", region)
  | Lookup.BySubregion subregion => some (str "subregion", subregion)
  | Lookup.ByTranslation translation => some (str "translation", translation)
  | _ => none

end Countries

/-! ## Worlds used as concrete inputs -/

namespace Countries

/-- A world without network: `http.Get` fails, and nothing decodes. -/
def offlineNet : Net :=
  { Get := fun _ => Except.error ⟨str "dial tcp: lookup restcountries.com: no such host"⟩
    DecodeErrorMessage := fun _ v => (v, some ⟨str "EOF"⟩)
    DecodeCountry := fun _ v => (v, some ⟨str "EOF"⟩)
    DecodeCountries := fun _ v => (v, some ⟨str "EOF"⟩) }

/-- The body `{"message":"Not Found","status":404}`. -/
def envelopeBody : GoString := str "\x7b\"message\":\"Not Found\",\"status\":404\x7d"

/-- The body `{"cca3":"CHE"}`. -/
def objectBody : GoString := str "\x7b\"cca3\":\"CHE\"\x7d"

/-- The body `[{"cca3":"CHE"}]`. -/
def arrayBody : GoString := str "[\x7b\"cca3\":\"CHE\"\x7d]"

/-- The body `{"cca3":"CHE","population":"many"}`: an object whose second
field has the wrong type. -/
def wrongTypeObjectBody : GoString :=
  str "\x7b\"cca3\":\"CHE\",\"population\":\"many\"\x7d"

/-- The body `[{"cca3":"CHE"},{"cca3":`: an array cut off inside its second
element. -/
def truncatedArrayBody : GoString := str "[\x7b\"cca3\":\"CHE\"\x7d,\x7b\"cca3\":"

/-- The record `Country{Cca3: "CHE"}`. -/
def switzerland : Country := { Country.zero with Cca3 := str "CHE" }

/-- A world whose service answers every request with `resp`, and whose JSON
decoder does on the bodies above what `encoding/json` does: it fills the
target as far as the body goes and reports the first error it meets. -/
def serviceNet (resp : Response) : Net :=
  { Get := fun _ => Except.ok resp
    DecodeErrorMessage := fun body v =>
      if body = envelopeBody then (⟨str "Not Found", 404⟩, none)
      else (v, some ⟨str "invalid character '<' looking for beginning of value"⟩)
    DecodeCountry := fun body v =>
      if body = objectBody then (({ v with Cca3 := str "CHE" } : Country), none)
      else if body = wrongTypeObjectBody then
        (({ v with Cca3 := str "CHE" } : Country),
          some ⟨str "json: cannot unmarshal string into Go struct field Country.population of type int"⟩)
      else (v, some ⟨str "invalid character '<' looking for beginning of value"⟩)
    DecodeCountries := fun body v =>
      if body = arrayBody then (some [switzerland], none)
      else if body = truncatedArrayBody then (some [switzerland], some ⟨str "unexpected EOF"⟩)
      else (v, some ⟨str "invalid character '<' looking for beginning of value"⟩) }

/-- A `404 Not Found` answer carrying the error envelope. -/
def notFound (close : Option GoError) : Response :=
  { Status := str "404 Not Found", StatusCode := 404, Body := envelopeBody, BodyClose := close }

/-- A `502 Bad Gateway` answer carrying an HTML page. -/
def badGateway (close : Option GoError) : Response :=
  { Status := str "502 Bad Gateway", StatusCode := 502,
    Body := str "<html>Bad Gateway</html>", BodyClose := close }

/-- A `200 OK` answer with the given body. -/
def ok200 (body : GoString) (close : Option GoError) : Response :=
  { Status := str "200 OK", StatusCode := 200, Body := body, BodyClose := close }

/-- An error of `resp.Body.Close()`. -/
def closeError : GoError := ⟨str "http: read on closed response body"⟩

end Countries

/-! ## Escaping: byte-level facts -/

namespace Countries
namespace url
open encoding

set_option maxRecDepth 100000 in
theorem hex_roundtrip : ∀ c : Byte,
    ishex (upperhex (c.val / 16)) = true ∧ ishex (upperhex (c.val % 16)) = true ∧
    (Fin.ofNat (unhex (upperhex (c.val / 16)) * 16 + unhex (upperhex (c.val % 16))) : Byte)
      = c := by
  decide

set_option maxRecDepth 100000 in
theorem plain_segment : ∀ c : Byte, shouldEscape c encodePathSegment = false →
    c.val ≠ 37 := by
  decide

set_option maxRecDepth 100000 in
theorem plain_query : ∀ c : Byte, shouldEscape c encodeQueryComponent = false →
    c.val ≠ 37 ∧ c.val ≠ 43 := by
  decide

set_option maxRecDepth 100000 in
set_option maxHeartbeats 4000000 in
theorem escapeByte_segmentByte :
    ∀ c : Byte, (escapeByte encodePathSegment c).all segmentByte = true := by
  decide

set_option maxRecDepth 100000 in
set_option maxHeartbeats 4000000 in
theorem escapeByte_queryByte :
    ∀ c : Byte, (escapeByte encodeQueryComponent c).all queryByte = true := by
  decide

theorem mem_escape (P : Byte → Bool) (m : encoding)
    (h : ∀ c : Byte, (escapeByte m c).all P = true) :
    ∀ s : GoString, ∀ b ∈ escape s m, P b = true := by
  intro s
  induction s with
  | nil => intro b hb; cases hb
  | cons c cs ih =>
    intro b hb
    simp only [escape, List.mem_append] at hb
    rcases hb with hb | hb
    · exact (List.all_eq_true.mp (h c)) b hb
    · exact ih b hb

theorem PathEscape_bytes (s : GoString) : ∀ b ∈ PathEscape s, segmentByte b = true :=
  mem_escape segmentByte encodePathSegment escapeByte_segmentByte s

theorem QueryEscape_bytes (s : GoString) : ∀ b ∈ QueryEscape s, queryByte b = true :=
  mem_escape queryByte encodeQueryComponent escapeByte_queryByte s

theorem unescape_cons (c : Byte) (cs : GoString) (m : encoding) :
    unescape (c :: cs) m =
      if c.val = 37 then
        match cs with
        | h1 :: h2 :: rest =>
          if ishex h1 ∧ ishex h2 then
            (unescape rest m).map (fun t => Fin.ofNat (unhex h1 * 16 + unhex h2) :: t)
          else none
        | _ => none
      else if c.val = 43 ∧ m = encodeQueryComponent then
        (unescape cs m).map (fun t => (32 : Byte) :: t)
      else
        (unescape cs m).map (fun t => c :: t) := by
  rcases cs with _ | ⟨h1, _ | ⟨h2, rest⟩⟩ <;> simp [unescape]

theorem unescape_cons_plain (c : Byte) (rest : GoString) (m : encoding)
    (h37 : c.val ≠ 37) (h43 : ¬ (c.val = 43 ∧ m = encodeQueryComponent)) :
    unescape (c :: rest) m = (unescape rest m).map (fun t => c :: t) := by
  rw [unescape_cons, if_neg h37, if_neg h43]

theorem unescape_pct (h1 h2 : Byte) (rest : GoString) (m : encoding)
    (e1 : ishex h1 = true) (e2 : ishex h2 = true) :
    unescape (37 :: h1 :: h2 :: rest) m
      = (unescape rest m).map (fun t => (Fin.ofNat (unhex h1 * 16 + unhex h2) : Byte) :: t) := by
  have h37 : (37 : Byte).val = 37 := rfl
  rw [unescape_cons, if_pos h37]
  simp [e1, e2]

theorem unescape_escapeByte (m m' : encoding) (hm : readsBack m m') (c : Byte)
    (rest : GoString) :
    unescape (escapeByte m c ++ rest) m' = (unescape rest m').map (fun t => c :: t) := by
  have hx := hex_roundtrip c
  unfold escapeByte
  by_cases hsp : c.val = 32 ∧ m = encodeQueryComponent
  · rw [if_pos hsp]
    rcases hm with ⟨hm1, _⟩ | ⟨_, hm2⟩
    · rw [hm1] at hsp; exact absurd hsp.2 (by decide)
    · have hc : c = 32 := Fin.ext hsp.1
      subst hm2
      subst hc
      have h37 : ¬ (43 : Byte).val = 37 := by decide
      have h43 : (43 : Byte).val = 43 ∧ encodeQueryComponent = encodeQueryComponent := ⟨rfl, rfl⟩
      show unescape (43 :: rest) encodeQueryComponent = _
      rw [unescape_cons, if_neg h37, if_pos h43]
  · rw [if_neg hsp]
    by_cases hesc : shouldEscape c m = true
    · rw [if_pos hesc]
      show unescape (37 :: upperhex (c.val / 16) :: upperhex (c.val % 16) :: rest) m' = _
      rw [unescape_pct _ _ _ _ hx.1 hx.2.1, hx.2.2]
    · rw [if_neg hesc]
      have hesc' : shouldEscape c m = false := by simpa using hesc
      show unescape (c :: rest) m' = _
      rcases hm with ⟨hm1, hm2⟩ | ⟨hm1, hm2⟩
      · subst hm1
        apply unescape_cons_plain _ _ _ (plain_segment c hesc')
        rintro ⟨_, h⟩
        rcases hm2 with h2 | h2 <;> rw [h2] at h <;> exact absurd h (by decide)
      · subst hm1
        exact unescape_cons_plain _ _ _ (plain_query c hesc').1
          (fun h => (plain_query c hesc').2 h.1)

theorem unescape_escape_append (m m' : encoding) (hm : readsBack m m') (s rest : GoString) :
    unescape (escape s m ++ rest) m' = (unescape rest m').map (fun t => s ++ t) := by
  induction s with
  | nil => simp [escape]
  | cons c cs ih =>
    simp only [escape, List.append_assoc]
    rw [unescape_escapeByte m m' hm, ih]
    cases unescape rest m' <;> simp

theorem unescape_escape (m m' : encoding) (hm : readsBack m m') (s : GoString) :
    unescape (escape s m) m' = some s := by
  have h := unescape_escape_append m m' hm s []
  simpa [unescape] using h

theorem PathUnescape_PathEscape (s : GoString) : PathUnescape (PathEscape s) = some s :=
  unescape_escape _ _ (Or.inl ⟨rfl, Or.inr rfl⟩) s

theorem QueryUnescape_QueryEscape (s : GoString) : QueryUnescape (QueryEscape s) = some s :=
  unescape_escape _ _ (Or.inr ⟨rfl, rfl⟩) s

theorem validEncoded_append (a b : GoString) (m : encoding) :
    validEncoded (a ++ b) m = (validEncoded a m && validEncoded b m) := by
  simp [validEncoded, List.all_append]

theorem validEncoded_PathEscape (s : GoString) : validEncoded (PathEscape s) encodePath = true := by
  have h := PathEscape_bytes s
  unfold validEncoded
  rw [List.all_eq_true]
  intro b hb
  have hb' := h b hb
  simp only [segmentByte, Bool.and_eq_true] at hb'
  simpa [validEncoded] using hb'.2

end url
end Countries

/-! ## Splitting, cutting, cleaning -/

namespace Countries

namespace path

theorem splitOn_ne_nil (sep : Byte) (s : GoString) : splitOn sep s ≠ [] := by
  induction s with
  | nil => simp [splitOn]
  | cons c cs ih =>
    simp only [splitOn]
    split
    · simp
    · split <;> simp

theorem splitOn_nosep (sep : Byte) (s : GoString) (h : sep ∉ s) : splitOn sep s = [s] := by
  induction s with
  | nil => rfl
  | cons c cs ih =>
    have hc : c ≠ sep := fun e => h (by simp [e])
    have hcs : sep ∉ cs := fun e => h (by simp [e])
    simp [splitOn, hc, ih hcs]

theorem splitOn_append_sep (sep : Byte) (a b : GoString) (h : sep ∉ a) :
    splitOn sep (a ++ sep :: b) = a :: splitOn sep b := by
  induction a with
  | nil => simp [splitOn]
  | cons c cs ih =>
    have hc : c ≠ sep := fun e => h (by simp [e])
    have hcs : sep ∉ cs := fun e => h (by simp [e])
    simp [splitOn, hc, ih hcs]

end path

namespace strings

theorem Cut_append_sep (sep : Byte) (a b : GoString) (h : sep ∉ a) :
    Cut (a ++ sep :: b) sep = (a, b, true) := by
  induction a with
  | nil => simp [Cut]
  | cons c cs ih =>
    have hc : c ≠ sep := fun e => h (by simp [e])
    have hcs : sep ∉ cs := fun e => h (by simp [e])
    simp [Cut, hc, ih hcs]

theorem Contains_eq_false (sep : Byte) (s : GoString) (h : sep ∉ s) :
    Contains s sep = false := by
  simp [Contains, h]

theorem HasSuffix_concat (x : GoString) (l c : Byte) :
    HasSuffix (x ++ [l]) [c] = (l == c) := by
  simp [HasSuffix]

theorem HasSuffix_append_false (a e : GoString) (c : Byte) (he : e ≠ []) (hc : c ∉ e) :
    HasSuffix (a ++ e) [c] = false := by
  obtain ⟨e', l, rfl⟩ : ∃ e' l, e = e' ++ [l] := by
    rcases List.eq_nil_or_concat e with h | ⟨e', l, h⟩
    · exact absurd h he
    · exact ⟨e', l, by simpa using h⟩
  rw [← List.append_assoc, HasSuffix_concat]
  have : l ≠ c := fun e => hc (by simp [e])
  simpa using this

end strings

end Countries

/-! ## The path of the request URL -/

namespace Countries

open url url.encoding

namespace path

set_option maxRecDepth 100000 in
theorem alnum_facts : ∀ c : Byte,
    ((97 ≤ c.val ∧ c.val ≤ 122) ∨ (65 ≤ c.val ∧ c.val ≤ 90) ∨ (48 ≤ c.val ∧ c.val ≤ 57)) →
    c.val ≠ 47 ∧ c.val ≠ 37 ∧ c.val ≠ 46 ∧ validEncoded [c] encodePath = true := by
  decide

theorem plainSegment_facts (seg : GoString) (h : plainSegment seg = true) :
    seg ≠ [] ∧ seg ≠ [46] ∧ seg ≠ [46, 46] ∧
      ∀ c ∈ seg, c.val ≠ 47 ∧ c.val ≠ 37 ∧ c.val ≠ 46 ∧ validEncoded [c] encodePath = true := by
  simp only [plainSegment, Bool.and_eq_true, decide_eq_true_eq, List.all_eq_true] at h
  obtain ⟨h0, hall⟩ := h
  have hc : ∀ c ∈ seg, c.val ≠ 47 ∧ c.val ≠ 37 ∧ c.val ≠ 46 ∧
      validEncoded [c] encodePath = true := fun c hc => alnum_facts c (hall c hc)
  refine ⟨h0, ?_, ?_, hc⟩
  · intro e
    exact (hc 46 (by simp [e])).2.2.1 rfl
  · intro e
    exact (hc 46 (by simp [e])).2.2.1 rfl

theorem Join_v31 (seg e : GoString) (hseg : plainSegment seg = true)
    (he0 : e ≠ []) (he1 : e ≠ [46]) (he2 : e ≠ [46, 46]) (he : (47 : Byte) ∉ e) :
    Join [[47, 118, 51, 46, 49, 47], seg ++ 47 :: e]
      = [47, 118, 51, 46, 49, 47] ++ seg ++ 47 :: e := by
  obtain ⟨hs0, hs1, hs2, hs⟩ := plainSegment_facts seg hseg
  have hseg47 : (47 : Byte) ∉ seg := fun h => (hs 47 h).1 rfl
  have h4 : (47 : Byte) ∉ ([118, 51, 46, 49] : GoString) := by decide
  have h0 : (47 : Byte) ∉ ([] : GoString) := by simp
  have hbuf : joinBuf [] [[47, 118, 51, 46, 49, 47], seg ++ 47 :: e]
      = [] ++ 47 :: ([118, 51, 46, 49] ++ 47 :: ([] ++ 47 :: (seg ++ 47 :: e))) := by
    simp [joinBuf]
  have hsplit : splitOn 47 ([] ++ 47 :: ([118, 51, 46, 49] ++ 47 :: ([] ++ 47 :: (seg ++ 47 :: e))))
      = [[], [118, 51, 46, 49], [], seg, e] := by
    rw [splitOn_append_sep 47 _ _ h0, splitOn_append_sep 47 _ _ h4, splitOn_append_sep 47 _ _ h0,
      splitOn_append_sep 47 _ _ hseg47, splitOn_nosep 47 _ he]
  unfold Join
  rw [if_neg (by simp), hbuf]
  unfold Clean
  rw [if_neg (by simp), hsplit]
  simp [cleanStep, hs0, hs1, hs2, he0, he1, he2, strings.Join]

end path

end Countries

/-! ## The URL built by `make_url` -/

namespace Countries

open url url.encoding

namespace url

theorem unescape_append_plain (a rest : GoString) (h : ∀ c ∈ a, c.val ≠ 37) :
    unescape (a ++ rest) encodePath = (unescape rest encodePath).map (fun t => a ++ t) := by
  induction a with
  | nil => simp
  | cons c cs ih =>
    have hc := h c (by simp)
    rw [List.cons_append, unescape_cons_plain _ _ _ hc (by simp),
      ih (fun x hx => h x (by simp [hx]))]
    cases unescape rest encodePath <;> simp

theorem setPath_sameOrigin (u : URL) (p : GoString) : sameOrigin u (u.setPath p).1 := by
  unfold URL.setPath sameOrigin
  split
  · simp
  · split <;> simp

theorem JoinPath_sameOrigin (u : URL) (elem : List GoString) :
    sameOrigin u (u.JoinPath elem) := by
  unfold URL.JoinPath
  exact setPath_sameOrigin u _

theorem setPath_RawQuery (u : URL) (p : GoString) : (u.setPath p).1.RawQuery = u.RawQuery := by
  unfold URL.setPath
  split
  · simp
  · split <;> simp

theorem JoinPath_RawQuery (u : URL) (elem : List GoString) :
    (u.JoinPath elem).RawQuery = u.RawQuery := by
  unfold URL.JoinPath
  exact setPath_RawQuery u _

theorem setPath_Path (u : URL) (p path : GoString) (hu : unescape p encodePath = some path) :
    (u.setPath p).1.Path = path := by
  unfold URL.setPath
  rw [hu]
  simp only
  split <;> rfl

theorem EscapedPath_setPath (u : URL) (p path : GoString)
    (hu : unescape p encodePath = some path) (hv : validEncoded p encodePath = true)
    (hstar : path ≠ [42]) : (u.setPath p).1.EscapedPath = p := by
  unfold URL.setPath
  rw [hu]
  simp only
  by_cases hp : p = escape path encodePath
  · rw [if_pos hp]
    unfold URL.EscapedPath
    simp [hstar, hp]
  · rw [if_neg hp]
    unfold URL.EscapedPath
    have hne : p ≠ [] := by
      intro h
      subst h
      simp [unescape] at hu
      subst hu
      exact hp rfl
    simp [hne, hv, hu]

theorem parsedBaseUrl_EscapedPath : parsedBaseUrl.EscapedPath = [47, 118, 51, 46, 49, 47] := by
  decide

/-- The parsed base URL writes back as `BaseUrl`. -/
theorem parsedBaseUrl_String : parsedBaseUrl.String = BaseUrl := by
  decide

theorem JoinPath_v31 (seg e : GoString) (hseg : path.plainSegment seg = true)
    (he0 : e ≠ []) (he1 : e ≠ [46]) (he2 : e ≠ [46, 46]) (he : (47 : Byte) ∉ e) :
    parsedBaseUrl.JoinPath [seg ++ 47 :: e]
      = (parsedBaseUrl.setPath ([47, 118, 51, 46, 49, 47] ++ seg ++ 47 :: e)).1 := by
  have hsuf : strings.HasSuffix (seg ++ 47 :: e) [47] = false := by
    have := strings.HasSuffix_append_false (seg ++ [47]) e 47 he0 he
    simpa using this
  unfold URL.JoinPath
  simp only [parsedBaseUrl_EscapedPath]
  simp [path.Join_v31 seg e hseg he0 he1 he2 he, hsuf]

/-- The URL string of a URL that has the scheme and host of the base URL, a
rooted path and no fragment. -/
theorem String_sameOrigin (u : URL) (h : sameOrigin parsedBaseUrl u)
    (hp : u.EscapedPath.head? = some 47) :
    u.String = str "https://restcountries.com" ++ u.EscapedPath ++
      (if u.RawQuery ≠ [] then 63 :: u.RawQuery else []) := by
  obtain ⟨h1, h2, h3, h4, h5, h6, h8, -⟩ := h
  have e1 : parsedBaseUrl.Scheme = [104, 116, 116, 112, 115] := by decide
  have e2 : parsedBaseUrl.Opaque = [] := by decide
  have e3 : parsedBaseUrl.User = none := by decide
  have e4 : parsedBaseUrl.Host
      = [114, 101, 115, 116, 99, 111, 117, 110, 116, 114, 105, 101, 115, 46, 99, 111, 109] := by
    decide
  have e5 : parsedBaseUrl.OmitHost = false := by decide
  have e6 : parsedBaseUrl.ForceQuery = false := by decide
  have e8 : parsedBaseUrl.Fragment = [] := by decide
  have e9 : escape [114, 101, 115, 116, 99, 111, 117, 110, 116, 114, 105, 101, 115, 46, 99, 111, 109]
      encodeHost
      = [114, 101, 115, 116, 99, 111, 117, 110, 116, 114, 105, 101, 115, 46, 99, 111, 109] := by
    decide
  have e10 : str "https://restcountries.com"
      = [104, 116, 116, 112, 115, 58, 47, 47, 114, 101, 115, 116, 99, 111, 117, 110, 116, 114,
          105, 101, 115, 46, 99, 111, 109] := by decide
  rw [e1] at h1; rw [e2] at h2; rw [e3] at h3; rw [e4] at h4; rw [e5] at h5; rw [e6] at h6
  rw [e8] at h8
  have hpne : u.EscapedPath ≠ [] := by
    intro h0; rw [h0] at hp; simp at hp
  unfold URL.String
  simp only [h1, h2, h3, h4, h5, h6, h8, e9, e10]
  by_cases hq : u.RawQuery = [] <;> simp [hp, hpne, hq]

end url

theorem make_url_EscapedPath (p : GoString) (qv : Values) (F : List GoString) :
    (make_url p qv F).EscapedPath = (parsedBaseUrl.JoinPath [p]).EscapedPath := rfl

theorem make_url_Path (p : GoString) (qv : Values) (F : List GoString) :
    (make_url p qv F).Path = (parsedBaseUrl.JoinPath [p]).Path := rfl

theorem make_url_sameOrigin (p : GoString) (qv : Values) (F : List GoString) :
    sameOrigin parsedBaseUrl (make_url p qv F) := by
  exact JoinPath_sameOrigin parsedBaseUrl [p]

theorem make_url_RawQuery (p : GoString) (qv : Values) (F : List GoString) :
    (make_url p qv F).RawQuery
      = ((qv.foldl (fun (q : Values) (kv : GoString × List GoString) =>
            kv.2.foldl (fun (q : Values) value => q.Add kv.1 value) q) ([] : Values)).Add
          (str "fields") (strings.Join F (str ","))).Encode := by
  have h : (parsedBaseUrl.JoinPath [p]).Query = [] := by
    unfold URL.Query
    rw [JoinPath_RawQuery]
    decide
  simp only [make_url, h]

end Countries

/-! ## The query of the request URL -/

namespace Countries

open url url.encoding

namespace url

theorem QueryEscape_no_amp (s : GoString) : (38 : Byte) ∉ QueryEscape s := by
  intro h
  have := QueryEscape_bytes s 38 h
  revert this
  decide

theorem QueryEscape_no_eq (s : GoString) : (61 : Byte) ∉ QueryEscape s := by
  intro h
  have := QueryEscape_bytes s 61 h
  revert this
  decide

theorem QueryEscape_no_semi (s : GoString) : (59 : Byte) ∉ QueryEscape s := by
  intro h
  have := QueryEscape_bytes s 59 h
  revert this
  decide

theorem setting_no_amp (k v : GoString) : (38 : Byte) ∉ QueryEscape k ++ 61 :: QueryEscape v := by
  intro h
  rcases List.mem_append.mp h with h | h
  · exact QueryEscape_no_amp k h
  · rcases List.mem_cons.mp h with h | h
    · exact absurd h (by decide)
    · exact QueryEscape_no_amp v h

theorem setting_no_semi (k v : GoString) : (59 : Byte) ∉ QueryEscape k ++ 61 :: QueryEscape v := by
  intro h
  rcases List.mem_append.mp h with h | h
  · exact QueryEscape_no_semi k h
  · rcases List.mem_cons.mp h with h | h
    · exact absurd h (by decide)
    · exact QueryEscape_no_semi v h

theorem splitOn_encodePairs (ps : List (GoString × GoString)) (h : ps ≠ []) :
    path.splitOn 38 (encodePairs ps)
      = ps.map (fun p => QueryEscape p.1 ++ 61 :: QueryEscape p.2) := by
  induction ps with
  | nil => exact absurd rfl h
  | cons p rest ih =>
    cases rest with
    | nil => simp [encodePairs, path.splitOn_nosep 38 _ (setting_no_amp p.1 p.2)]
    | cons q rest =>
      simp only [encodePairs, List.map_cons]
      rw [path.splitOn_append_sep 38 _ _ (setting_no_amp p.1 p.2), ih (by simp)]
      simp

theorem parseQueryStep_setting (st : Values × Bool) (k v : GoString) :
    parseQueryStep st (QueryEscape k ++ 61 :: QueryEscape v) = (st.1.Add k v, st.2) := by
  unfold parseQueryStep
  rw [strings.Contains_eq_false 59 _ (setting_no_semi k v)]
  rw [strings.Cut_append_sep 61 _ _ (QueryEscape_no_eq k)]
  simp [QueryUnescape_QueryEscape]

theorem foldl_parseQueryStep (ps : List (GoString × GoString)) (st : Values × Bool) :
    (ps.map (fun p => QueryEscape p.1 ++ 61 :: QueryEscape p.2)).foldl parseQueryStep st
      = (ps.foldl (fun (m : Values) p => m.Add p.1 p.2) st.1, st.2) := by
  induction ps generalizing st with
  | nil => rfl
  | cons p rest ih =>
    simp only [List.map_cons, List.foldl_cons]
    rw [parseQueryStep_setting, ih]

/-- Parsing undoes encoding: a query written as escaped `key=value` settings
parses without error into exactly those settings, in order. -/
theorem ParseQuery_encodePairs (ps : List (GoString × GoString)) :
    ParseQuery (encodePairs ps)
      = (ps.foldl (fun (m : Values) p => m.Add p.1 p.2) [], true) := by
  cases ps with
  | nil => rfl
  | cons p rest =>
    have hne : encodePairs (p :: rest) ≠ [] := by
      cases rest <;> simp [encodePairs]
    unfold ParseQuery
    rw [if_neg hne, splitOn_encodePairs _ (by simp), foldl_parseQueryStep]

theorem Encode_one (k v : GoString) :
    Values.Encode [(k, [v])] = encodePairs [(k, v)] := by
  simp [Values.Encode, sortKeys, insertKey, Values.index, encodeKey, encodePairs]

theorem Encode_two (k1 v1 k2 v2 : GoString) (h12 : stringLt k1 k2 = true)
    (h21 : stringLt k2 k1 = false) (hne : k1 ≠ k2) :
    Values.Encode [(k1, [v1]), (k2, [v2])] = encodePairs [(k1, v1), (k2, v2)] ∧
    Values.Encode [(k2, [v2]), (k1, [v1])] = encodePairs [(k1, v1), (k2, v2)] := by
  have hne' : k2 ≠ k1 := fun h => hne h.symm
  constructor <;>
    simp [Values.Encode, sortKeys, insertKey, Values.index, encodeKey, encodePairs, h12, h21,
      hne, hne']

end url

end Countries

/-! ## Lookups with a path parameter -/

namespace Countries

open url url.encoding

theorem PathEscape_injective (a b : GoString) (h : PathEscape a = PathEscape b) : a = b := by
  have ha := PathUnescape_PathEscape a
  rw [h, PathUnescape_PathEscape] at ha
  exact (Option.some.inj ha).symm

theorem PathEscape_no_slash (s : GoString) : (47 : Byte) ∉ PathEscape s := by
  intro h
  have := PathEscape_bytes s 47 h
  revert this
  decide

theorem PathEscape_no_question (s : GoString) : (63 : Byte) ∉ PathEscape s := by
  intro h
  have := PathEscape_bytes s 63 h
  revert this
  decide

theorem PathEscape_no_number_sign (s : GoString) : (35 : Byte) ∉ PathEscape s := by
  intro h
  have := PathEscape_bytes s 35 h
  revert this
  decide

theorem validEncoded_plainSegment (seg : GoString) (hseg : path.plainSegment seg = true) :
    validEncoded seg encodePath = true := by
  obtain ⟨-, -, -, hs⟩ := path.plainSegment_facts seg hseg
  unfold validEncoded
  rw [List.all_eq_true]
  intro c hc
  have := (hs c hc).2.2.2
  simpa [validEncoded] using this

/-- The URL `make_url` builds for a static segment followed by an escaped
caller string that is neither empty nor a dot element: the path is the base
path, the segment, and the caller string as one escaped segment. -/
theorem make_url_param (seg s : GoString) (qv : Values) (F : List GoString)
    (hseg : path.plainSegment seg = true) (hs0 : s ≠ []) (hs1 : s ≠ [46])
    (hs2 : s ≠ [46, 46]) :
    (make_url (seg ++ 47 :: PathEscape s) qv F).Path
        = [47, 118, 51, 46, 49, 47] ++ seg ++ 47 :: s ∧
    (make_url (seg ++ 47 :: PathEscape s) qv F).EscapedPath
        = [47, 118, 51, 46, 49, 47] ++ seg ++ 47 :: PathEscape s ∧
    (make_url (seg ++ 47 :: PathEscape s) qv F).String
        = str "https://restcountries.com" ++
            ([47, 118, 51, 46, 49, 47] ++ seg ++ 47 :: PathEscape s) ++
            (if (make_url (seg ++ 47 :: PathEscape s) qv F).RawQuery ≠ [] then
              63 :: (make_url (seg ++ 47 :: PathEscape s) qv F).RawQuery else []) := by
  have he0 : PathEscape s ≠ [] := fun h => hs0 (PathEscape_injective s [] (by rw [h]; rfl))
  have he1 : PathEscape s ≠ [46] := fun h => hs1 (PathEscape_injective s [46] (by rw [h]; decide))
  have he2 : PathEscape s ≠ [46, 46] :=
    fun h => hs2 (PathEscape_injective s [46, 46] (by rw [h]; decide))
  obtain ⟨-, -, -, hs⟩ := path.plainSegment_facts seg hseg
  have hJ := JoinPath_v31 seg (PathEscape s) hseg he0 he1 he2 (PathEscape_no_slash s)
  have hshape : [47, 118, 51, 46, 49, 47] ++ seg ++ 47 :: PathEscape s
      = ([47, 118, 51, 46, 49, 47] ++ seg ++ [47]) ++ PathEscape s := by simp
  have hplain : ∀ c ∈ ([47, 118, 51, 46, 49, 47] ++ seg ++ [47] : GoString), c.val ≠ 37 := by
    intro c hc
    simp only [List.mem_append, List.mem_cons, List.mem_singleton, List.not_mem_nil,
      or_false] at hc
    rcases hc with (hc | hc) | hc
    · rcases hc with rfl | rfl | rfl | rfl | rfl | rfl <;> decide
    · exact (hs c hc).2.1
    · rw [hc]; decide
  have hu : unescape ([47, 118, 51, 46, 49, 47] ++ seg ++ 47 :: PathEscape s) encodePath
      = some ([47, 118, 51, 46, 49, 47] ++ seg ++ 47 :: s) := by
    rw [hshape, unescape_append_plain _ _ hplain]
    have := unescape_escape encodePathSegment encodePath (Or.inl ⟨rfl, Or.inl rfl⟩) s
    unfold PathEscape
    rw [this]
    simp
  have hv : validEncoded ([47, 118, 51, 46, 49, 47] ++ seg ++ 47 :: PathEscape s) encodePath
      = true := by
    rw [hshape, validEncoded_append, validEncoded_append, validEncoded_append,
      validEncoded_plainSegment seg hseg, validEncoded_PathEscape]
    decide
  have hstar : ([47, 118, 51, 46, 49, 47] ++ seg ++ 47 :: s : GoString) ≠ [42] := by simp
  have hP : (make_url (seg ++ 47 :: PathEscape s) qv F).Path
      = [47, 118, 51, 46, 49, 47] ++ seg ++ 47 :: s := by
    rw [make_url_Path, hJ]
    exact setPath_Path _ _ _ hu
  have hE : (make_url (seg ++ 47 :: PathEscape s) qv F).EscapedPath
      = [47, 118, 51, 46, 49, 47] ++ seg ++ 47 :: PathEscape s := by
    rw [make_url_EscapedPath, hJ]
    exact EscapedPath_setPath _ _ _ hu hv hstar
  refine ⟨hP, hE, ?_⟩
  rw [String_sameOrigin _ (make_url_sameOrigin _ _ _) (by rw [hE]; simp), hE]

theorem request_u (net : Net) (p : GoString) (qv : Values) (F : List GoString) :
    (request net p qv F).u = make_url p qv F := by
  unfold request
  dsimp only
  repeat (first | rfl | split)

theorem requestSingle_u (net : Net) (p : GoString) (qv : Values) (F : List GoString) :
    (requestSingle net p qv F).u = make_url p qv F := by
  unfold requestSingle
  dsimp only
  repeat (first | rfl | split)

end Countries

/-! ## The query and path of each lookup -/

namespace Countries

open url url.encoding

theorem encodePairs_ne_nil (p : GoString × GoString) (ps : List (GoString × GoString)) :
    encodePairs (p :: ps) ≠ [] := by
  cases ps <;> simp [encodePairs]

theorem rawQuery_plain (p : GoString) (F : List GoString) :
    (make_url p [] F).RawQuery = encodePairs [(str "fields", strings.Join F (str ","))] := by
  rw [make_url_RawQuery]
  exact Encode_one _ _

theorem rawQuery_fullText (p : GoString) (F : List GoString) :
    (make_url p [(str "fullText", [str "true"])] F).RawQuery
      = encodePairs [(str "fields", strings.Join F (str ",")), (str "fullText", str "true")] := by
  rw [make_url_RawQuery]
  have hne : str "fullText" ≠ str "fields" := by decide
  have h := (Encode_two (str "fields") (strings.Join F (str ",")) (str "fullText") (str "true")
    (by decide) (by decide) (by decide)).2
  simpa [Values.Add, hne] using h

theorem rawQuery_codes (p : GoString) (C F : List GoString) :
    (make_url p [(str "codes", [strings.Join C (str ",")])] F).RawQuery
      = encodePairs [(str "codes", strings.Join C (str ",")),
          (str "fields", strings.Join F (str ","))] := by
  rw [make_url_RawQuery]
  have hne : str "codes" ≠ str "fields" := by decide
  have h := (Encode_two (str "codes") (strings.Join C (str ",")) (str "fields")
    (strings.Join F (str ",")) (by decide) (by decide) (by decide)).1
  simpa [Values.Add, hne] using h

theorem rawQuery_status (p : GoString) (b : Bool) (F : List GoString) :
    (make_url p [(str "status", [Sprintf_t b])] F).RawQuery
      = encodePairs [(str "fields", strings.Join F (str ",")), (str "status", Sprintf_t b)] := by
  rw [make_url_RawQuery]
  have hne : str "status" ≠ str "fields" := by decide
  have h := (Encode_two (str "fields") (strings.Join F (str ",")) (str "status") (Sprintf_t b)
    (by decide) (by decide) (by decide)).2
  simpa [Values.Add, hne] using h

/-- Every lookup's query is one of four shapes: `fields` alone, `fields`
with `fullText=true`, `codes` with `fields`, or `fields` with `status`. -/
theorem lookup_rawQuery (net : Net) (F : List GoString) (l : Lookup) :
    ∃ pre post : List (GoString × GoString),
      (∀ kv ∈ pre ++ post, kv.1 ≠ str "fields") ∧ pre.length + post.length ≤ 1 ∧
      (l.u net F).RawQuery
        = encodePairs (pre ++ (str "fields", strings.Join F (str ",")) :: post) := by
  cases l with
  | ByFullName name =>
    refine ⟨[], [(str "fullText", str "true")], ?_, by simp, ?_⟩
    · intro kv hkv
      simp only [List.nil_append, List.mem_singleton] at hkv
      rw [hkv]; decide
    · simp only [Lookup.u, Countries.ByFullName, request_u, rawQuery_fullText, List.nil_append]
  | ByCodes codes =>
    refine ⟨[(str "codes", strings.Join codes (str ","))], [], ?_, by simp, ?_⟩
    · intro kv hkv
      simp only [List.append_nil, List.mem_singleton] at hkv
      rw [hkv]
      show str "codes" ≠ str "fields"
      decide
    · simp only [Lookup.u, Countries.ByCodes, request_u, rawQuery_codes]
      rfl
  | ByIndependence b =>
    refine ⟨[], [(str "status", Sprintf_t b)], ?_, by simp, ?_⟩
    · intro kv hkv
      simp only [List.nil_append, List.mem_singleton] at hkv
      rw [hkv]
      show str "status" ≠ str "fields"
      decide
    · simp only [Lookup.u, Countries.ByIndependence, request_u, rawQuery_status, List.nil_append]
  | _ =>
    refine ⟨[], [], by simp, by simp, ?_⟩
    simp only [Lookup.u, Countries.All, Countries.ByName, Countries.ByCode,
      Countries.ByCurrency, Countries.ByDemonym, Countries.ByLanguage, Countries.ByCapital,
      Countries.ByRegion, Countries.BySubregion, Countries.ByTranslation, request_u, requestSingle_u, rawQuery_plain,
      List.nil_append]

end Countries

namespace Countries

open url url.encoding

theorem index_Add_same (m : Values) (k v : GoString) :
    (m.Add k v).index k = m.index k ++ [v] := by
  induction m with
  | nil => simp [Values.Add, Values.index]
  | cons e rest ih =>
    obtain ⟨k', vs⟩ := e
    by_cases h : k' = k
    · simp [Values.Add, Values.index, h]
    · simp [Values.Add, Values.index, h, ih]

theorem index_Add_other (m : Values) (k k' v : GoString) (h : k' ≠ k) :
    (m.Add k' v).index k = m.index k := by
  induction m with
  | nil => simp [Values.Add, Values.index, h]
  | cons e rest ih =>
    obtain ⟨k'', vs⟩ := e
    by_cases h1 : k'' = k'
    · subst h1
      simp [Values.Add, Values.index, h]
    · by_cases h2 : k'' = k
      · subst h2
        simp [Values.Add, Values.index, h1]
      · simp [Values.Add, Values.index, h1, h2, ih]

theorem index_foldl_Add (ps : List (GoString × GoString)) (m : Values) (k : GoString) :
    (ps.foldl (fun (m : Values) p => m.Add p.1 p.2) m).index k
      = m.index k ++ (ps.filter (fun p => decide (p.1 = k))).map Prod.snd := by
  induction ps generalizing m with
  | nil => simp
  | cons p rest ih =>
    simp only [List.foldl_cons]
    rw [ih]
    by_cases h : p.1 = k
    · rw [← h, index_Add_same]
      simp
    · rw [index_Add_other _ _ _ _ h]
      simp [h]

/-- A query with exactly one setting for `k` parses to a map with exactly
one value under `k`. -/
theorem index_ParseQuery_encodePairs (pre post : List (GoString × GoString)) (k v : GoString)
    (h : ∀ kv ∈ pre ++ post, kv.1 ≠ k) :
    (ParseQuery (encodePairs (pre ++ (k, v) :: post))).1.index k = [v] ∧
    (ParseQuery (encodePairs (pre ++ (k, v) :: post))).2 = true := by
  rw [ParseQuery_encodePairs]
  refine ⟨?_, rfl⟩
  simp only
  rw [index_foldl_Add]
  have h1 : pre.filter (fun p => decide (p.1 = k)) = [] := by
    rw [List.filter_eq_nil_iff]
    intro a ha
    simpa using h a (by simp [ha])
  have h2 : post.filter (fun p => decide (p.1 = k)) = [] := by
    rw [List.filter_eq_nil_iff]
    intro a ha
    simpa using h a (by simp [ha])
  simp [List.filter_append, List.filter_cons, h1, h2, Values.index]

/-- The ten lookups with a path parameter hand `make_url` the documented
static segment followed by the escaped caller string, and their query is not
empty. -/
theorem lookup_pathParameter (net : Net) (F : List GoString) (l : Lookup) (seg p : GoString)
    (hl : l.pathParameter = some (seg, p)) :
    path.plainSegment seg = true ∧
    ∃ qv : Values, l.u net F = make_url (seg ++ 47 :: PathEscape p) qv F ∧
      (make_url (seg ++ 47 :: PathEscape p) qv F).RawQuery ≠ [] := by
  have hq0 : ∀ x : GoString, (make_url x [] F).RawQuery ≠ [] := fun x => by
    rw [rawQuery_plain]; exact encodePairs_ne_nil _ _
  have hq1 : ∀ x : GoString, (make_url x [(str "fullText", [str "true"])] F).RawQuery ≠ [] :=
    fun x => by rw [rawQuery_fullText]; exact encodePairs_ne_nil _ _
  have e1 : str "name/" = str "name" ++ [47] := by decide
  have e2 : str "alpha/" = str "alpha" ++ [47] := by decide
  have e3 : str "currency/" = str "currency" ++ [47] := by decide
  have e4 : str "demonym/" = str "demonym" ++ [47] := by decide
  have e5 : str "lang/" = str "lang" ++ [47] := by decide
  have e6 : str "capital/" = str "capital" ++ [47] := by decide
  have e7 : str "region/" = str "region" ++ [47] := by decide
  have e8 : str "subregion/" = str "subregion" ++ [47] := by decide
  have e9 : str "translation/" = str "translation" ++ [47] := by decide
  cases l <;> simp only [Lookup.pathParameter, Option.some.injEq, Prod.mk.injEq, reduceCtorEq] at hl
  all_goals obtain ⟨rfl, rfl⟩ := hl
  all_goals refine ⟨by decide, ?_⟩
  case ByFullName =>
    refine ⟨[(str "fullText", [str "true"])], ?_, hq1 _⟩
    simp only [Lookup.u, Countries.ByFullName, request_u, e1, List.append_assoc,
      List.singleton_append]
  all_goals refine ⟨[], ?_, hq0 _⟩
  all_goals simp only [Lookup.u, Countries.ByName, Countries.ByCode,
    Countries.ByCurrency, Countries.ByDemonym, Countries.ByLanguage, Countries.ByCapital,
    Countries.ByRegion, Countries.BySubregion, Countries.ByTranslation, request_u,
    requestSingle_u, e1, e2, e3, e4, e5, e6, e7, e8, e9, List.append_assoc,
    List.singleton_append]

end Countries

/-! ## The claims about the request URL -/

namespace Countries

open url url.encoding

theorem escape_append (a b : GoString) (m : encoding) :
    escape (a ++ b) m = escape a m ++ escape b m := by
  induction a with
  | nil => rfl
  | cons c cs ih => simp [escape, ih]

set_option maxRecDepth 100000 in
theorem escapeByte_nonASCII : ∀ c : Byte, 128 ≤ c.val →
    escapeByte encodePathSegment c = [37, upperhex (c.val / 16), upperhex (c.val % 16)] := by
  decide

/-- C1: for every public lookup, every lookup argument and every ordered field
list `F` (any bytes), the URL built by `make_url` parses without error to a
query with exactly one value under `fields`, and that value, decoded, is the
elements of `F` joined with `,` in the caller's order; `All("cca3","name")`
requests `https://restcountries.com/v3.1/all?fields=cca3%2Cname`. -/
theorem C1_fields_parameter (net : Net) (l : Lookup) (F : List GoString) :
    (l.u net F).Query.index (str "fields") = [strings.Join F (str ",")] ∧
    (ParseQuery (l.u net F).RawQuery).2 = true ∧
    (Countries.All net [str "cca3", str "name"]).requested
      = str "https://restcountries.com/v3.1/all?fields=cca3%2Cname" := by
  obtain ⟨pre, post, hk, -, hq⟩ := lookup_rawQuery net F l
  have h := index_ParseQuery_encodePairs pre post (str "fields") (strings.Join F (str ",")) hk
  refine ⟨?_, ?_, ?_⟩
  · unfold URL.Query
    rw [hq]
    exact h.1
  · rw [hq]
    exact h.2
  · unfold Run.requested Countries.All
    rw [request_u]
    decide

/-- C2: for every path parameter `p` that contains a space, a slash or a
non-ASCII byte, the URL string requested by each of the ten path-parameter
lookups is the base URL, the static segment, and `p` percent-escaped once as a
single segment (no slash, question mark or number sign in it), followed by the
query; a space is written `%20`, a slash `%2F`, a non-ASCII byte `%XX`, and
unescaping that segment once gives `p` back. -/
theorem C2_path_parameter_escaped_once (net : Net) (F : List GoString) (l : Lookup)
    (seg p : GoString) (hl : l.pathParameter = some (seg, p))
    (hp : ∃ b ∈ p, b.val = 32 ∨ b.val = 47 ∨ 128 ≤ b.val) :
    (l.u net F).String
      = str "https://restcountries.com/v3.1/" ++ seg ++ str "/" ++ PathEscape p ++ str "?" ++
          (l.u net F).RawQuery ∧
    (l.u net F).Path = str "/v3.1/" ++ seg ++ str "/" ++ p ∧
    (47 : Byte) ∉ PathEscape p ∧ (63 : Byte) ∉ PathEscape p ∧ (35 : Byte) ∉ PathEscape p ∧
    PathUnescape (PathEscape p) = some p ∧
    (∀ q r : GoString, PathEscape (q ++ 32 :: r) = PathEscape q ++ str "%20" ++ PathEscape r) ∧
    (∀ q r : GoString, PathEscape (q ++ 47 :: r) = PathEscape q ++ str "%2F" ++ PathEscape r) ∧
    (∀ (q r : GoString) (b : Byte), 128 ≤ b.val →
      PathEscape (q ++ b :: r)
        = PathEscape q ++ [37, upperhex (b.val / 16), upperhex (b.val % 16)] ++ PathEscape r) := by
  obtain ⟨hseg, qv, hu, hq⟩ := lookup_pathParameter net F l seg p hl
  obtain ⟨b, hb, hspec⟩ := hp
  have hs0 : p ≠ [] := by
    intro h; subst h; simp at hb
  have hs1 : p ≠ [46] := by
    intro h; subst h
    simp only [List.mem_singleton] at hb
    subst hb
    revert hspec; decide
  have hs2 : p ≠ [46, 46] := by
    intro h; subst h
    simp only [List.mem_cons, List.mem_singleton, List.not_mem_nil, or_false, or_self] at hb
    subst hb
    revert hspec; decide
  obtain ⟨hP, -, hS⟩ := make_url_param seg p qv F hseg hs0 hs1 hs2
  have e1 : str "https://restcountries.com/v3.1/"
      = str "https://restcountries.com" ++ [47, 118, 51, 46, 49, 47] := by decide
  have e2 : str "/" = [47] := by decide
  have e3 : str "?" = [63] := by decide
  have e4 : str "/v3.1/" = [47, 118, 51, 46, 49, 47] := by decide
  refine ⟨?_, ?_, PathEscape_no_slash p, PathEscape_no_question p, PathEscape_no_number_sign p,
    PathUnescape_PathEscape p, ?_, ?_, ?_⟩
  · rw [hu, hS, if_pos hq, e1, e2, e3]
    simp
  · rw [hu, hP, e2, e4]
    simp
  · intro q r
    have : escapeByte encodePathSegment 32 = str "%20" := by decide
    simp [PathEscape, escape_append, escape, this]
  · intro q r
    have : escapeByte encodePathSegment 47 = str "%2F" := by decide
    simp [PathEscape, escape_append, escape, this]
  · intro q r b hb
    simp [PathEscape, escape_append, escape, escapeByte_nonASCII b hb]

/-- Witness for C2: `BySubregion("Western Europe", "cca3", "name")` requests
the path `/v3.1/subregion/Western%20Europe`. -/
theorem C2_path_parameter_escaped_once_witness :
    (Lookup.BySubregion (str "Western Europe")).pathParameter
      = some (str "subregion", str "Western Europe") ∧
    (∃ b ∈ str "Western Europe", b.val = 32 ∨ b.val = 47 ∨ 128 ≤ b.val) ∧
    ((Lookup.BySubregion (str "Western Europe")).u offlineNet [str "cca3", str "name"]).String
      = str "https://restcountries.com/v3.1/" ++ str "subregion" ++ str "/" ++
          PathEscape (str "Western Europe") ++ str "?" ++
          ((Lookup.BySubregion (str "Western Europe")).u offlineNet
            [str "cca3", str "name"]).RawQuery :=
  ⟨rfl, ⟨32, by decide, Or.inl rfl⟩,
    (C2_path_parameter_escaped_once offlineNet [str "cca3", str "name"]
      (Lookup.BySubregion (str "Western Europe")) (str "subregion") (str "Western Europe") rfl
      ⟨32, by decide, Or.inl rfl⟩).1⟩

/-- C3 fails for the dot elements: `ByName("..")` does not request
`/v3.1/name/..` but the base path without its final slash, `/v3.1`, and
`ByName(".")` requests `/v3.1/name`; likewise `ByCode("..")` requests `/v3.1`:
`JoinPath` cleans the dot element that `PathEscape` left unescaped, and the
static segment is removed. -/
theorem C3_dot_elements_remove_static_segment (net : Net) :
    (Countries.ByName net (str "..") [str "name"]).requested
      = str "https://restcountries.com/v3.1?fields=name" ∧
    (Countries.ByName net (str "..") [str "name"]).u.Path = str "/v3.1" ∧
    (Countries.ByName net (str ".") [str "name"]).requested
      = str "https://restcountries.com/v3.1/name?fields=name" ∧
    (Countries.ByCode net (str "..") [str "name"]).requested
      = str "https://restcountries.com/v3.1?fields=name" ∧
    PathEscape (str "..") = str ".." ∧ PathEscape (str ".") = str "." := by
  unfold Run.requested Countries.ByName Countries.ByCode
  rw [request_u, request_u, requestSingle_u]
  decide

end Countries

namespace Countries

open url url.encoding

theorem requested_static (net : Net) (p : GoString) (qv : Values) (F : List GoString)
    (hp : (parsedBaseUrl.JoinPath [p]).EscapedPath.head? = some 47) :
    (request net p qv F).requested
      = str "https://restcountries.com" ++ (parsedBaseUrl.JoinPath [p]).EscapedPath ++
          (if (make_url p qv F).RawQuery ≠ [] then 63 :: (make_url p qv F).RawQuery else []) := by
  unfold Run.requested
  rw [request_u, String_sameOrigin _ (make_url_sameOrigin _ _ _)
    (by rw [make_url_EscapedPath]; exact hp), make_url_EscapedPath]

/-- C7: for every list of codes `C` and field list `F`, `ByCodes(C, F...)`
requests the path `/v3.1/alpha` with a query that parses without error to
exactly two parameters: `codes`, with the single value `C` joined with `,`,
and `fields`; for `["CH","DE"]` and `["cca3","name"]` the URL is
`https://restcountries.com/v3.1/alpha?codes=CH%2CDE&fields=cca3%2Cname`. -/
theorem C7_ByCodes_single_codes_parameter (net : Net) (C F : List GoString) :
    (Countries.ByCodes net C F).u.Path = str "/v3.1/alpha" ∧
    (Countries.ByCodes net C F).requested
      = str "https://restcountries.com/v3.1/alpha?codes=" ++
          QueryEscape (strings.Join C (str ",")) ++ str "&fields=" ++
          QueryEscape (strings.Join F (str ",")) ∧
    ParseQuery (Countries.ByCodes net C F).u.RawQuery
      = ([(str "codes", [strings.Join C (str ",")]),
          (str "fields", [strings.Join F (str ",")])], true) ∧
    (Countries.ByCodes net [str "CH", str "DE"] [str "cca3", str "name"]).requested
      = str "https://restcountries.com/v3.1/alpha?codes=CH%2CDE&fields=cca3%2Cname" := by
  have hE : (parsedBaseUrl.JoinPath [str "alpha"]).EscapedPath = str "/v3.1/alpha" := by decide
  have hne : str "codes" ≠ str "fields" := by decide
  have k1 : QueryEscape (str "codes") = str "codes" := by decide
  have k2 : QueryEscape (str "fields") = str "fields" := by decide
  have e1 : str "https://restcountries.com/v3.1/alpha?codes="
      = str "https://restcountries.com" ++ (str "/v3.1/alpha" ++ 63 :: (str "codes" ++ [61])) := by
    decide
  have e2 : str "&fields=" = 38 :: (str "fields" ++ [61]) := by decide
  refine ⟨?_, ?_, ?_, ?_⟩
  · unfold Countries.ByCodes
    rw [request_u, make_url_Path]
    decide
  · unfold Countries.ByCodes
    rw [requested_static _ _ _ _ (by rw [hE]; decide), hE, rawQuery_codes,
      if_pos (encodePairs_ne_nil _ _), e1, e2]
    simp [encodePairs, k1, k2]
  · unfold Countries.ByCodes
    rw [request_u, rawQuery_codes, ParseQuery_encodePairs]
    simp [Values.Add, hne]
  · unfold Run.requested Countries.ByCodes
    rw [request_u]
    decide

/-- C8: for every boolean `b` and field list `F`, `ByIndependence(b, F...)`
requests the path `/v3.1/independent` with a query that parses without error
to exactly `fields` and one `status` parameter whose value is the literal
`true` when `b` is true and `false` when it is false; the two flags produce
different URLs. -/
theorem C8_ByIndependence_status_literal (net : Net) (b : Bool) (F : List GoString) :
    (Countries.ByIndependence net b F).u.Path = str "/v3.1/independent" ∧
    (Countries.ByIndependence net b F).requested
      = str "https://restcountries.com/v3.1/independent?fields=" ++
          QueryEscape (strings.Join F (str ",")) ++ str "&status=" ++
          (if b then str "true" else str "false") ∧
    ParseQuery (Countries.ByIndependence net b F).u.RawQuery
      = ([(str "fields", [strings.Join F (str ",")]),
          (str "status", [if b then str "true" else str "false"])], true) ∧
    (Countries.ByIndependence net true F).requested
      ≠ (Countries.ByIndependence net false F).requested := by
  have hE : (parsedBaseUrl.JoinPath [str "independent"]).EscapedPath
      = str "/v3.1/independent" := by decide
  have hne : str "fields" ≠ str "status" := by decide
  have k1 : QueryEscape (str "status") = str "status" := by decide
  have k2 : QueryEscape (str "fields") = str "fields" := by decide
  have k3 : ∀ c : Bool, QueryEscape (Sprintf_t c) = if c then str "true" else str "false" := by
    decide
  have k4 : ∀ c : Bool, Sprintf_t c = if c then str "true" else str "false" := by
    decide
  have e1 : str "https://restcountries.com/v3.1/independent?fields="
      = str "https://restcountries.com" ++
          (str "/v3.1/independent" ++ 63 :: (str "fields" ++ [61])) := by
    decide
  have e2 : str "&status=" = 38 :: (str "status" ++ [61]) := by decide
  have hreq : ∀ c : Bool, (Countries.ByIndependence net c F).requested
      = str "https://restcountries.com/v3.1/independent?fields=" ++
          QueryEscape (strings.Join F (str ",")) ++ str "&status=" ++
          (if c then str "true" else str "false") := by
    intro c
    unfold Countries.ByIndependence
    rw [requested_static _ _ _ _ (by rw [hE]; decide), hE, rawQuery_status,
      if_pos (encodePairs_ne_nil _ _), e1, e2]
    simp [encodePairs, k1, k2, k3]
  refine ⟨?_, hreq b, ?_, ?_⟩
  · unfold Countries.ByIndependence
    rw [request_u, make_url_Path]
    decide
  · unfold Countries.ByIndependence
    rw [request_u, rawQuery_status, ParseQuery_encodePairs]
    simp [Values.Add, hne, k4]
  · rw [hreq true, hreq false]
    intro h
    have h' := List.append_cancel_left h
    revert h'
    decide

end Countries

/-! ## The claims about the response -/

namespace Countries

open url url.encoding

/-- Counterexample to C4 as stated: a `404` answer with a decodable envelope
whose body fails to close.  Neither engine returns: the deferred `log.Fatal`
ends the process. -/
theorem C4_counterexample :
    (notFound (some closeError)).StatusCode ≠ StatusOK ∧
    (serviceNet (notFound (some closeError))).DecodeErrorMessage
        (notFound (some closeError)).Body ErrorMessage.zero = (⟨str "Not Found", 404⟩, none) ∧
    (request (serviceNet (notFound (some closeError))) (str "name/Atlantis") [] [str "name"]).outcome
      = Outcome.fatal (str "Error closing response body:http: read on closed response body") ∧
    (requestSingle (serviceNet (notFound (some closeError))) (str "alpha/XX") []
        [str "name"]).outcome
      = Outcome.fatal (str "Error closing response body:http: read on closed response body") ∧
    (request (serviceNet (notFound (some closeError))) (str "name/Atlantis") [] [str "name"]).outcome
      ≠ Outcome.returned none
          (some ⟨str "API request failed with status 404 Not Found : Not Found"⟩) := by
  decide

/-- C4, amended: for every answer whose status code is not 200, whose body
decodes as the envelope and whose body closes without error, `request` and
`requestSingle` return the error with the text `API request failed with
status ` + status text + ` : ` + envelope message, with a nil list and
`Country{}`; the result does not depend on the decoders for countries. -/
theorem C4_service_error (net : Net) (p : GoString) (qv : Values) (F : List GoString)
    (resp : Response) (errorMsg : ErrorMessage)
    (hget : net.Get (make_url p qv F).String = Except.ok resp)
    (hstatus : resp.StatusCode ≠ StatusOK)
    (hdec : net.DecodeErrorMessage resp.Body ErrorMessage.zero = (errorMsg, none))
    (hclose : resp.BodyClose = none) :
    (request net p qv F).outcome
      = Outcome.returned none
          (some ⟨str "API request failed with status " ++ resp.Status ++ str " : " ++
            errorMsg.Message⟩) ∧
    (requestSingle net p qv F).outcome
      = Outcome.returned Country.zero
          (some ⟨str "API request failed with status " ++ resp.Status ++ str " : " ++
            errorMsg.Message⟩) ∧
    (∀ (dc : GoString → Country → Country × Option GoError)
        (dcs : GoString → Slice Country → Slice Country × Option GoError),
      (request { net with DecodeCountry := dc, DecodeCountries := dcs } p qv F).outcome
        = (request net p qv F).outcome ∧
      (requestSingle { net with DecodeCountry := dc, DecodeCountries := dcs } p qv F).outcome
        = (requestSingle net p qv F).outcome) := by
  have h1 : ∀ n : Net, n.Get = net.Get → n.DecodeErrorMessage = net.DecodeErrorMessage →
      (request n p qv F).outcome = Outcome.returned none
        (some ⟨str "API request failed with status " ++ resp.Status ++ str " : " ++
          errorMsg.Message⟩) := by
    intro n hg hd
    unfold request
    simp only [hg, hd, hget, hstatus, hdec, deferredClose, hclose, Errorf_APIRequestFailed,
      ne_eq, not_false_eq_true, if_true]
  have h2 : ∀ n : Net, n.Get = net.Get → n.DecodeErrorMessage = net.DecodeErrorMessage →
      (requestSingle n p qv F).outcome = Outcome.returned Country.zero
        (some ⟨str "API request failed with status " ++ resp.Status ++ str " : " ++
          errorMsg.Message⟩) := by
    intro n hg hd
    unfold requestSingle
    simp only [hg, hd, hget, hstatus, hdec, deferredClose, hclose, Errorf_APIRequestFailed,
      ne_eq, not_false_eq_true, if_true]
  refine ⟨h1 net rfl rfl, h2 net rfl rfl, ?_⟩
  intro dc dcs
  rw [h1 net rfl rfl, h2 net rfl rfl]
  exact ⟨h1 _ rfl rfl, h2 _ rfl rfl⟩

/-- Witness for C4, amended: the `404` answer with the envelope, closing
without error. -/
theorem C4_service_error_witness :
    (serviceNet (notFound none)).Get (make_url (str "name/Atlantis") [] [str "name"]).String
      = Except.ok (notFound none) ∧
    (notFound none).StatusCode ≠ StatusOK ∧
    (serviceNet (notFound none)).DecodeErrorMessage (notFound none).Body ErrorMessage.zero
      = (⟨str "Not Found", 404⟩, none) ∧
    (notFound none).BodyClose = none ∧
    (request (serviceNet (notFound none)) (str "name/Atlantis") [] [str "name"]).outcome
      = Outcome.returned none
          (some ⟨str "API request failed with status " ++ (notFound none).Status ++ str " : " ++
            (⟨str "Not Found", 404⟩ : ErrorMessage).Message⟩) :=
  ⟨rfl, by decide, by decide, rfl,
    (C4_service_error (serviceNet (notFound none)) (str "name/Atlantis") [] [str "name"]
      (notFound none) ⟨str "Not Found", 404⟩ rfl (by decide) (by decide) rfl).1⟩

end Countries

namespace Countries

open url url.encoding

/-- Counterexample to C5 as stated: a `200` answer whose body does not decode
and fails to close.  Neither engine returns the decoder's error: the deferred
`log.Fatal` ends the process. -/
theorem C5_counterexample :
    (ok200 wrongTypeObjectBody (some closeError)).StatusCode = StatusOK ∧
    ((serviceNet (ok200 wrongTypeObjectBody (some closeError))).DecodeCountry
        wrongTypeObjectBody Country.zero).2
      = some ⟨str "json: cannot unmarshal string into Go struct field Country.population of type int"⟩ ∧
    (requestSingle (serviceNet (ok200 wrongTypeObjectBody (some closeError))) (str "alpha/CH") []
        [str "cca3", str "population"]).outcome
      = Outcome.fatal (str "Error closing response body:http: read on closed response body") ∧
    (request (serviceNet (ok200 truncatedArrayBody (some closeError))) (str "all") []
        [str "cca3"]).outcome
      = Outcome.fatal (str "Error closing response body:http: read on closed response body") := by
  decide

/-- C5, amended: for every answer with status 200 whose body closes without
error, an engine whose decoder fails returns the decoder's error with the zero
value (`Country{}`, nil), whatever the decoder had written into its target;
and an engine whose decoder succeeds returns the decoded value with a nil
error. -/
theorem C5_malformed_success (net : Net) (p : GoString) (qv : Values) (F : List GoString)
    (resp : Response)
    (hget : net.Get (make_url p qv F).String = Except.ok resp)
    (hstatus : resp.StatusCode = StatusOK)
    (hclose : resp.BodyClose = none) :
    (∀ (written : Country) (err : GoError),
      net.DecodeCountry resp.Body Country.zero = (written, some err) →
      (requestSingle net p qv F).outcome = Outcome.returned Country.zero (some err)) ∧
    (∀ (written : Slice Country) (err : GoError),
      net.DecodeCountries resp.Body none = (written, some err) →
      (request net p qv F).outcome = Outcome.returned none (some err)) ∧
    (∀ country : Country, net.DecodeCountry resp.Body Country.zero = (country, none) →
      (requestSingle net p qv F).outcome = Outcome.returned country none) ∧
    (∀ countries : Slice Country, net.DecodeCountries resp.Body none = (countries, none) →
      (request net p qv F).outcome = Outcome.returned countries none) := by
  refine ⟨?_, ?_, ?_, ?_⟩
  · intro written err hdec
    unfold requestSingle
    simp only [hget, hstatus, hdec, deferredClose, hclose, ne_eq, not_true_eq_false, if_false]
  · intro written err hdec
    unfold request
    simp only [hget, hstatus, hdec, deferredClose, hclose, ne_eq, not_true_eq_false, if_false]
  · intro country hdec
    unfold requestSingle
    simp only [hget, hstatus, hdec, deferredClose, hclose, ne_eq, not_true_eq_false, if_false]
  · intro countries hdec
    unfold request
    simp only [hget, hstatus, hdec, deferredClose, hclose, ne_eq, not_true_eq_false, if_false]

/-- Witness for C5, amended: the object with a field of the wrong type, after
`cca3` was already filled, and the truncated array: the record the decoder
had filled is not returned. -/
theorem C5_malformed_success_witness :
    (serviceNet (ok200 wrongTypeObjectBody none)).Get
        (make_url (str "alpha/CH") [] [str "cca3", str "population"]).String
      = Except.ok (ok200 wrongTypeObjectBody none) ∧
    (ok200 wrongTypeObjectBody none).StatusCode = StatusOK ∧
    (ok200 wrongTypeObjectBody none).BodyClose = none ∧
    (serviceNet (ok200 wrongTypeObjectBody none)).DecodeCountry
        (ok200 wrongTypeObjectBody none).Body Country.zero
      = (switzerland,
          some ⟨str "json: cannot unmarshal string into Go struct field Country.population of type int"⟩) ∧
    (requestSingle (serviceNet (ok200 wrongTypeObjectBody none)) (str "alpha/CH") []
        [str "cca3", str "population"]).outcome
      = Outcome.returned Country.zero
          (some ⟨str "json: cannot unmarshal string into Go struct field Country.population of type int"⟩) :=
  ⟨rfl, rfl, rfl, by decide,
    (C5_malformed_success (serviceNet (ok200 wrongTypeObjectBody none)) (str "alpha/CH") []
      [str "cca3", str "population"] (ok200 wrongTypeObjectBody none) rfl rfl rfl).1
      switzerland _ (by decide)⟩

/-- Counterexample to C6 as stated: a `502` answer whose body is not an
envelope and fails to close.  Neither engine returns the decode error: the
deferred `log.Fatal` ends the process. -/
theorem C6_counterexample :
    (badGateway (some closeError)).StatusCode ≠ StatusOK ∧
    ((serviceNet (badGateway (some closeError))).DecodeErrorMessage
        (badGateway (some closeError)).Body ErrorMessage.zero).2
      = some ⟨str "invalid character '<' looking for beginning of value"⟩ ∧
    (request (serviceNet (badGateway (some closeError))) (str "all") [] [str "cca3"]).outcome
      = Outcome.fatal (str "Error closing response body:http: read on closed response body") ∧
    (requestSingle (serviceNet (badGateway (some closeError))) (str "alpha/CH") []
        [str "cca3"]).outcome
      = Outcome.fatal (str "Error closing response body:http: read on closed response body") := by
  decide

/-- C6, amended: for every answer whose status code is not 200, whose body
fails to decode as the envelope and whose body closes without error, `request`
and `requestSingle` return that decode error itself, with a nil list and
`Country{}`. -/
theorem C6_malformed_envelope (net : Net) (p : GoString) (qv : Values) (F : List GoString)
    (resp : Response) (written : ErrorMessage) (err : GoError)
    (hget : net.Get (make_url p qv F).String = Except.ok resp)
    (hstatus : resp.StatusCode ≠ StatusOK)
    (hdec : net.DecodeErrorMessage resp.Body ErrorMessage.zero = (written, some err))
    (hclose : resp.BodyClose = none) :
    (request net p qv F).outcome = Outcome.returned none (some err) ∧
    (requestSingle net p qv F).outcome = Outcome.returned Country.zero (some err) := by
  constructor
  · unfold request
    simp only [hget, hstatus, hdec, deferredClose, hclose, ne_eq, not_false_eq_true, if_true]
  · unfold requestSingle
    simp only [hget, hstatus, hdec, deferredClose, hclose, ne_eq, not_false_eq_true, if_true]

/-- Witness for C6, amended: the `502` answer with an HTML body, closing
without error. -/
theorem C6_malformed_envelope_witness :
    (serviceNet (badGateway none)).Get (make_url (str "all") [] [str "cca3"]).String
      = Except.ok (badGateway none) ∧
    (badGateway none).StatusCode ≠ StatusOK ∧
    (serviceNet (badGateway none)).DecodeErrorMessage (badGateway none).Body ErrorMessage.zero
      = (ErrorMessage.zero, some ⟨str "invalid character '<' looking for beginning of value"⟩) ∧
    (badGateway none).BodyClose = none ∧
    (request (serviceNet (badGateway none)) (str "all") [] [str "cca3"]).outcome
        = Outcome.returned none
            (some ⟨str "invalid character '<' looking for beginning of value"⟩) ∧
    (requestSingle (serviceNet (badGateway none)) (str "all") [] [str "cca3"]).outcome
        = Outcome.returned Country.zero
            (some ⟨str "invalid character '<' looking for beginning of value"⟩) :=
  ⟨rfl, by decide, by decide, rfl,
    C6_malformed_envelope (serviceNet (badGateway none)) (str "all") [] [str "cca3"]
      (badGateway none) ErrorMessage.zero _ rfl (by decide) (by decide) rfl⟩

/-- C9 is what the comment on `All` promises, and the code does not secure
it: `All()` with no field performs no check of the field list, sends
`https://restcountries.com/v3.1/all?fields=`, and hands back whatever the
answer holds; on a `200` answer carrying an array it returns the countries
with a nil error. -/
theorem C9_All_without_fields_unchecked :
    (Countries.All (serviceNet (ok200 arrayBody none)) []).requested
      = str "https://restcountries.com/v3.1/all?fields=" ∧
    (Countries.All (serviceNet (ok200 arrayBody none)) []).outcome
      = Outcome.returned (some [switzerland]) none := by
  decide

/-- Counterexample to C10 as stated: on a `404` answer whose body fails to
close, neither engine returns an error; both end the process. -/
theorem C10_counterexample :
    (notFound (some closeError)).StatusCode ≠ StatusOK ∧
    (∀ err : Option GoError,
      (request (serviceNet (notFound (some closeError))) (str "alpha/XX") []
          [str "name"]).outcome ≠ Outcome.returned none err) ∧
    (∀ err : Option GoError,
      (requestSingle (serviceNet (notFound (some closeError))) (str "alpha/XX") []
          [str "name"]).outcome ≠ Outcome.returned Country.zero err) := by
  refine ⟨by decide, ?_, ?_⟩
  · intro err h
    have h' : (request (serviceNet (notFound (some closeError))) (str "alpha/XX") []
        [str "name"]).outcome
        = Outcome.fatal (str "Error closing response body:http: read on closed response body") := by
      decide
    rw [h'] at h
    cases h
  · intro err h
    have h' : (requestSingle (serviceNet (notFound (some closeError))) (str "alpha/XX") []
        [str "name"]).outcome
        = Outcome.fatal (str "Error closing response body:http: read on closed response body") := by
      decide
    rw [h'] at h
    cases h

/-- C10, amended: for every path, query-parameter set and field list the two
engines issue the GET to the same URL; when the transport fails, or the answer
has a status other than 200 and its body closes without error, they return the
same error, each with the zero value of its result type; on a `200` answer
whose body closes without error `request` returns what the array decoder
gives and `requestSingle` what the object decoder gives. -/
theorem C10_engines_agree (net : Net) (p : GoString) (qv : Values) (F : List GoString)
    (hclose : ∀ resp : Response,
      net.Get (make_url p qv F).String = Except.ok resp → resp.BodyClose = none) :
    (request net p qv F).requested = (make_url p qv F).String ∧
    (requestSingle net p qv F).requested = (make_url p qv F).String ∧
    (∀ err : GoError, net.Get (make_url p qv F).String = Except.error err →
      (request net p qv F).outcome = Outcome.returned none (some err) ∧
      (requestSingle net p qv F).outcome = Outcome.returned Country.zero (some err)) ∧
    (∀ resp : Response, net.Get (make_url p qv F).String = Except.ok resp →
      resp.StatusCode ≠ StatusOK →
      ∃ err : GoError,
        (request net p qv F).outcome = Outcome.returned none (some err) ∧
        (requestSingle net p qv F).outcome = Outcome.returned Country.zero (some err)) ∧
    (∀ resp : Response, net.Get (make_url p qv F).String = Except.ok resp →
      resp.StatusCode = StatusOK →
      (request net p qv F).outcome
        = (match net.DecodeCountries resp.Body none with
          | (_, some err) => Outcome.returned none (some err)
          | (countries, none) => Outcome.returned countries none) ∧
      (requestSingle net p qv F).outcome
        = (match net.DecodeCountry resp.Body Country.zero with
          | (_, some err) => Outcome.returned Country.zero (some err)
          | (country, none) => Outcome.returned country none)) := by
  refine ⟨?_, ?_, ?_, ?_, ?_⟩
  · unfold Run.requested
    rw [request_u]
  · unfold Run.requested
    rw [requestSingle_u]
  · intro err hget
    constructor
    · unfold request
      simp only [hget]
    · unfold requestSingle
      simp only [hget]
  · intro resp hget hstatus
    have hc := hclose resp hget
    rcases hd : net.DecodeErrorMessage resp.Body ErrorMessage.zero with ⟨written, _ | err⟩
    · refine ⟨Errorf_APIRequestFailed resp.Status written.Message, ?_, ?_⟩
      · unfold request
        simp only [hget, hstatus, hd, deferredClose, hc, ne_eq, not_false_eq_true, if_true]
      · unfold requestSingle
        simp only [hget, hstatus, hd, deferredClose, hc, ne_eq, not_false_eq_true, if_true]
    · refine ⟨err, ?_, ?_⟩
      · unfold request
        simp only [hget, hstatus, hd, deferredClose, hc, ne_eq, not_false_eq_true, if_true]
      · unfold requestSingle
        simp only [hget, hstatus, hd, deferredClose, hc, ne_eq, not_false_eq_true, if_true]
  · intro resp hget hstatus
    have hc := hclose resp hget
    constructor
    · unfold request
      simp only [hget, hstatus, deferredClose, hc, ne_eq, not_true_eq_false, if_false]
      split <;> simp_all
    · unfold requestSingle
      simp only [hget, hstatus, deferredClose, hc, ne_eq, not_true_eq_false, if_false]
      split <;> simp_all

/-- Witness for C10, amended: a `404` answer with the envelope, closing
without error: both engines request the same URL. -/
theorem C10_engines_agree_witness :
    (∀ resp : Response,
      (serviceNet (notFound none)).Get (make_url (str "alpha/XX") [] [str "name"]).String
        = Except.ok resp → resp.BodyClose = none) ∧
    (request (serviceNet (notFound none)) (str "alpha/XX") [] [str "name"]).requested
      = (make_url (str "alpha/XX") [] [str "name"]).String :=
  ⟨fun resp h => by cases h; rfl,
    (C10_engines_agree (serviceNet (notFound none)) (str "alpha/XX") [] [str "name"]
      (fun resp h => by cases h; rfl)).1⟩

end Countries
